import Mathlib

/-
Verification of the kratos hardware-IR core (expr.cc, stmt.hh, except.cc)
against its natural-language specification.

The C++ variable/expression graph is shallowly embedded as follows:
- a signal (Var) is described by its construction-time attributes, the record
  VarSig (name, element width var_width_, dimension list size_, sign flag,
  node-kind tag type_, explicit-array flag, optional enum type name);
- statement operands (the left/right of an AssignStmt, which may be a direct
  variable reference, a chain of nested VarSlice nodes, or an operator
  expression tree) are the inductive Op1, where slice and expression nodes
  carry the attribute fields that the corresponding C++ node stores at
  construction time;
- the mutable graph state (per-variable source/sink registration sets, the
  statement table, per-generator statement lists) is the record St, with
  identifiers (Nat) playing the role of pointers;
- every C++ function that can throw returns Except Err; the Err constructors
  are in one-to-one correspondence with the exception messages of expr.cc.

Machine integers: every width/bound in the C++ code is uint32_t and every
constant value is int64_t; widths stay far below 2^32 in every guarded code
path, so they are modelled as Nat, with an explicit mod 2^32 where a raw
int64-to-uint32 store happens (Param::set_value) and an explicit mod 2^64
where int64 bits are reinterpreted as uint64 (Const::Const).
-/

namespace kratos

/-- Node kind tags of the variable hierarchy (enum VarType of the upstream
header; Base is the zero value). -/
inductive VarType where
  | Base
  | PortIO
  | Expression
  | ConstValue
  | Slice
  | BaseCasted
  | Parameter
deriving Repr, DecidableEq

/-- Operator tags used by Expr nodes (enum ExprOp; the members referenced by
expr.cc). -/
inductive ExprOp where
  | Add
  | Minus
  | Divide
  | Multiply
  | Mod
  | LogicalShiftRight
  | SignedShiftRight
  | ShiftLeft
  | Or
  | And
  | Xor
  | LessThan
  | GreaterThan
  | LessEqThan
  | GreaterEqThan
  | Eq
  | Neq
  | UInvert
  | UPlus
  | UOr
  | UAnd
  | UXor
  | UNot
  | Concat
  | Extend
  | Conditional
deriving Repr, DecidableEq

/-- is_relational_op (expr.cc lines 21-25). Note that Neq is NOT relational. -/
def is_relational_op (op : ExprOp) : Bool :=
  match op with
  | .LessThan | .GreaterThan | .LessEqThan | .GreaterEqThan | .Eq => true
  | _ => false

/-- is_reduction_op (expr.cc lines 27-30). -/
def is_reduction_op (op : ExprOp) : Bool :=
  match op with
  | .UOr | .UXor | .UAnd | .UNot => true
  | _ => false

/-- is_expand_op (expr.cc lines 32-35). -/
def is_expand_op (op : ExprOp) : Bool :=
  match op with
  | .Concat | .Extend => true
  | _ => false

/-- Construction-time attributes of a table variable: name, var_width_, size_,
is_signed_, type_, explicit_array_, and the enum type name for enum-typed
variables (EnumVar / EnumConst carry a pointer to their Enum definition; here
the definition is identified by its name, which is what EnumVar::assign
compares). -/
structure VarSig where
  name : String := ""
  var_width : Nat := 1
  size : List Nat := [1]
  is_signed : Bool := false
  vtype : VarType := .Base
  explicit_array : Bool := false
  enumName : Option String := none
deriving Repr, DecidableEq

/-- Var::width (expr.cc lines 37-41): element width multiplied by every array
dimension. -/
def VarSig.width (v : VarSig) : Nat :=
  v.size.foldl (fun a b => a * b) v.var_width

/-- Typed errors; each constructor corresponds to one throw site of expr.cc
(the original message text is quoted in the comments below). -/
inductive Err where
  /-- Expr::Expr: left (..) width (..) does not match with right (..) width (..). -/
  | widthMismatch (lname : String) (lw : Nat) (rname : String) (rw : Nat)
  /-- Var::operator[]: low (..) cannot be larger than (..). -/
  | lowHighErr (low high : Nat)
  /-- Var::operator[]: high (..) has to be smaller than width (..). -/
  | highWidthErr (high width : Nat)
  /-- Var::operator[]: high (..) has to be smaller than size (..). -/
  | highSizeErr (high size : Nat)
  /-- VarSlice::VarSlice: parent is a scalar marked as an explicit array, only [0, 0] allowed. -/
  | explicitArraySliceErr
  /-- VarCasted::VarCasted: can only cast bit width 1 to Clock or AsyncReset. -/
  | clockCastErr (name : String) (sizeFront : Nat)
  /-- VarVarSlice::VarVarSlice: bit extraction of array[..:0] requires .. bit index, not .. bits. -/
  | bitExtractionErr (dim required actual : Nat)
  /-- VarConcat::VarConcat: (..) is signed but (..) is not. -/
  | concatSignErr (a b : String)
  /-- VarExtend::VarExtend: cannot extend (..) to a smaller width. -/
  | extendWidthErr (name : String) (pw w : Nat)
  /-- VarExtend::VarExtend: cannot extend an array. -/
  | extendArrayErr (name : String)
  /-- VarExtend::add_source: cannot add source to an extended variable. -/
  | extendSourceErr
  /-- Var::assign: cannot assign (..) to a const (..). -/
  | assignToConstErr (src tgt : String)
  /-- Var::assign: cannot assign (..) to an expression. -/
  | assignToExprErr (src : String)
  /-- EnumVar::assign: cannot assign enum type to non enum type. -/
  | enumNonEnumErr
  /-- EnumVar::assign: cannot assign different enum type. -/
  | enumMismatchErr
  /-- VarCasted::assign: (..) is not allowed to be a sink. -/
  | castedSinkErr (name : String)
  /-- set_var_parent / stmt_set_left / stmt_set_right: target not found. -/
  | targetNotFoundErr
  /-- set_var_parent: slice cannot be null. -/
  | sliceNullErr
  /-- Var::move_src_to / move_sink_to: only base or port variables are allowed. -/
  | onlyBasePortErr
  /-- Var::move_linked_to: width mismatch between the linked variables. -/
  | moveWidthErr (need got : Nat)
  /-- Var::move_linked_to: sign mismatch between the linked variables. -/
  | moveSignErr
  /-- Param::set_value: value used for width parametrization cannot be non-positive. -/
  | nonPositiveParamErr (value : Int)
  /-- Var::Var: module is null / reserved keyword (User errors). -/
  | userErr (msg : String)
deriving Repr, DecidableEq

/- ------------------------------------------------------------------ -/
/- Claim C2: the Expr constructor (expr.cc lines 369-392).              -/
/- ------------------------------------------------------------------ -/

/-- Attribute fields of an Expr node as set by the Expr constructor. -/
structure ExprNode where
  var_width : Nat
  size : List Nat
  is_signed : Bool
  op : ExprOp
deriving Repr, DecidableEq

/-- Total width of an Expr node, by the inherited Var::width rule. -/
def ExprNode.width (e : ExprNode) : Nat :=
  e.size.foldl (fun a b => a * b) e.var_width

/-- Expr::Expr(op, left, right) (expr.cc lines 369-392). The base Var call
copies the left operand element width, dimension list and sign; the body then
checks the width match for binary operators, overwrites var_width_ with 1 for
relational and reduction operators and with the left TOTAL width otherwise,
and sets is_signed_ to the conjunction of the operand signs. The size_ list
stays the left operand list throughout. -/
def Expr.make (op : ExprOp) (left : VarSig) (right : Option VarSig) : Except Err ExprNode :=
  match right with
  | some r =>
      if left.width ≠ r.width then
        .error (.widthMismatch left.name left.width r.name r.width)
      else
        .ok { var_width := if is_relational_op op || is_reduction_op op then 1 else left.width
              size := left.size
              is_signed := left.is_signed && r.is_signed
              op := op }
  | none =>
      .ok { var_width := if is_relational_op op || is_reduction_op op then 1 else left.width
            size := left.size
            is_signed := left.is_signed
            op := op }

/- ------------------------------------------------------------------ -/
/- Slice construction: Var::operator[] and the VarSlice constructor.    -/
/- ------------------------------------------------------------------ -/

/-- Attributes a statement operand exposes (the Var fields read through the
base-class interface by the slice and expression code). -/
structure OpInfo where
  var_width : Nat
  size : List Nat
  is_signed : Bool
deriving Repr, DecidableEq

/-- Total width of an operand, by the Var::width rule. -/
def OpInfo.width (i : OpInfo) : Nat :=
  i.size.foldl (fun a b => a * b) i.var_width

/-- A statement operand: a direct reference to a table variable, a VarSlice
over a parent operand, or an Expr over one or two operands. Slice and
expression nodes carry the attribute fields the C++ node stores at
construction time (graph rewrites replace operand pointers without
recomputing the stored fields of expression nodes, so the fields are part of
the node, not derived). An expr2 node with op = Concat additionally carries
the flattened vars_ list of the VarConcat node (variable identifiers). -/
inductive Op1 where
  | base (v : Nat)
  | slice (parent : Op1) (high low : Nat) (info : OpInfo) (var_high var_low : Nat)
  | expr1 (op : ExprOp) (l : Op1) (info : OpInfo)
  | expr2 (op : ExprOp) (l : Op1) (r : Op1) (cvars : List Nat) (info : OpInfo)
deriving Repr, DecidableEq

/-- An environment assigning attributes to table variables (the role of
dereferencing a Var pointer). -/
abbrev Env := Nat → VarSig

/-- Attributes of an operand: table lookup for direct references, stored
fields for derived nodes. -/
def opInfo (env : Env) : Op1 → OpInfo
  | .base v => ⟨(env v).var_width, (env v).size, (env v).is_signed⟩
  | .slice _ _ _ i _ _ => i
  | .expr1 _ _ i => i
  | .expr2 _ _ _ _ i => i

/-- explicit_array of an operand (only settable on table variables; derived
nodes leave the flag false). -/
def opExplicit (env : Env) : Op1 → Bool
  | .base v => (env v).explicit_array
  | _ => false

/-- Whether the operand node is a VarSlice (type() == VarType::Slice test). -/
def opIsSlice : Op1 → Bool
  | .slice .. => true
  | _ => false

/-- var_low of a slice operand (only read after a type() == Slice test). -/
def opVarLow : Op1 → Nat
  | .slice _ _ _ _ _ vl => vl
  | _ => 0

/-- type() of an operand. -/
def opType (env : Env) : Op1 → VarType
  | .base v => (env v).vtype
  | .slice .. => .Slice
  | .expr1 .. => .Expression
  | .expr2 .. => .Expression

/-- Everything the VarSlice constructor reads from its parent. -/
structure OpSig where
  info : OpInfo
  explicitArr : Bool
  isSlice : Bool
  varLow : Nat
deriving Repr, DecidableEq

/-- Parent signature of an operand. -/
def opSig (env : Env) (o : Op1) : OpSig :=
  ⟨opInfo env o, opExplicit env o, opIsSlice o, opVarLow o⟩

/-- VarSlice::VarSlice(parent, high, low) (expr.cc lines 243-298), computing
the stored fields (var_width_/size_/is_signed_, var_high_, var_low_) of the
new slice from the parent signature. The base Var call seeds var_width_ with
the parent element width, size_ with [1] and the sign with the parent sign;
the body then branches exactly as the source does. The bug preserved here on
purpose: when the parent is itself a slice of a scalar, the source computes
var_high_ as (high + 1) + parent var_low_, one above the bit the slice
actually ends at (the sibling array branch subtracts 1 after the
multiplication; this branch does not). -/
def sliceFields (p : OpSig) (high low : Nat) : Except Err (OpInfo × Nat × Nat) :=
  let pi := p.info
  if pi.size = [1] ∧ p.explicitArr ∧ ¬(high = 0 ∧ low = 0) then
    .error .explicitArraySliceErr
  else
    let vw := if pi.size = [1] ∧ p.explicitArr then pi.var_width
              else if pi.size = [1] then high - low + 1
              else pi.var_width
    let sz := if pi.size = [1] then [1] else pi.size.set 0 (high - low + 1)
    let bw := pi.var_width * ((pi.size.drop 1).foldl (fun a b => a * b) 1)
    let hl :=
      if ¬p.isSlice then
        if pi.size = [1] ∧ p.explicitArr then (vw - 1, 0)
        else if pi.size = [1] then (high, low)
        else ((high + 1) * bw - 1, low * bw)
      else
        if pi.size = [1] then ((high + 1) + p.varLow, low + p.varLow)
        else (p.varLow + (high + 1) * bw - 1, p.varLow + low * bw)
    .ok (⟨vw, sz, pi.is_signed⟩, hl.1, hl.2)

/-- Bound checks of Var::operator[](pair) (expr.cc lines 142-166) followed by
the VarSlice field computation: everything the slicing operation derives from
the parent signature. The strict comparison high > size front (rather than
at least) is as in the source. -/
def indexFields (s : OpSig) (high low : Nat) : Except Err (OpInfo × Nat × Nat) :=
  if low > high then .error (.lowHighErr low high)
  else if s.info.size = [1] then
    if high ≥ s.info.width then .error (.highWidthErr high s.info.width)
    else sliceFields s high low
  else if high > s.info.size.headD 1 then .error (.highSizeErr high (s.info.size.headD 1))
  else sliceFields s high low

/-- Var::operator[](pair) (expr.cc lines 142-166): bound checks against the
parent, then the VarSlice constructor. The insertion into the parent slices_
cache is bookkeeping outside this model. -/
def Var.index (env : Env) (v : Op1) (high low : Nat) : Except Err Op1 :=
  (indexFields (opSig env v) high low).map (fun f => .slice v high low f.1 f.2.1 f.2.2)

/- ------------------------------------------------------------------ -/
/- Claim C3 evidence: nested scalar slices.                             -/
/- ------------------------------------------------------------------ -/

/-- Environment with a single scalar signal of width 8 (every identifier
resolves to it; only identifier 0 is used). -/
def c3env : Env := fun _ => { var_width := 8 }

/-- The slice a[5:2] of the width-8 scalar: width 4, absolute bits 5 down
to 2. -/
def c3outer : Op1 := .slice (.base 0) 5 2 ⟨4, [1], false⟩ 5 2

/-- Claim C3 (code_bug evidence): slicing the width-8 scalar signal with
(5, 2) gives a width-4 slice with absolute bits (5, 2) as the claim states,
but re-slicing that slice with local bounds (1, 0) gives absolute var_high 4
instead of the composed value outer_low + h2 = 3: the nested-scalar branch of
the VarSlice constructor adds one too many. The resulting node claims bits
[2..4] for a width-2 slice, violating var_high = var_low + width - 1, which
first-level slices and the array branch both satisfy. -/
theorem C3_nested_slice_eval :
    Var.index c3env (.base 0) 5 2 = .ok c3outer
    ∧ Var.index c3env c3outer 1 0 = .ok (.slice c3outer 1 0 ⟨2, [1], false⟩ 4 2)
    ∧ (2 : Nat) + 1 = 3 := by
  refine ⟨?_, ?_, rfl⟩ <;> rfl

/- ------------------------------------------------------------------ -/
/- Claim C5: VarCasted construction and Var::cast.                      -/
/- ------------------------------------------------------------------ -/

/-- Cast kinds (enum VarCastType of the upstream header; the members used by
expr.cc). -/
inductive VarCastType where
  | Signed
  | Unsigned
  | AsyncReset
  | Clock
deriving Repr, DecidableEq

/-- Attribute fields of a VarCasted node. -/
structure CastNode where
  var_width : Nat
  size : List Nat
  is_signed : Bool
  cast_type : VarCastType
deriving Repr, DecidableEq

/-- VarCasted::VarCasted(parent, cast_type) (expr.cc lines 541-558). The base
Var call passes the parent TOTAL width as the element width, size 1, and the
parent type tag coerced to bool as the sign seed (Base is the zero tag). The
body then forces the sign for Signed/Unsigned casts, and for Clock and
AsyncReset casts rejects a parent whose dimension list is not [1] - the guard
inspects only size(), never the bit width, even though its message speaks of
bit width 1. -/
def VarCasted.make (p : VarSig) (ct : VarCastType) : Except Err CastNode :=
  let n0 : CastNode :=
    { var_width := p.width, size := [1], is_signed := p.vtype ≠ VarType.Base, cast_type := ct }
  if ct = .Signed then .ok { n0 with is_signed := true }
  else if ct = .Unsigned then .ok { n0 with is_signed := false }
  else if ct = .AsyncReset ∨ ct = .Clock then
    if p.size.length ≠ 1 ∨ p.size.headD 1 ≠ 1 then
      .error (.clockCastErr p.name (p.size.headD 1))
    else .ok n0
  else .ok n0

/-- Result of Var::cast: the identity short-circuit, a cache hit, or a fresh
node. -/
inductive CastResult where
  | same
  | cached (id : Nat)
  | created (id : Nat) (node : CastNode)
deriving Repr, DecidableEq

/-- Var::cast (expr.cc lines 575-584): a signed cast of an already-signed
variable returns the variable itself; otherwise the per-kind cache casted_ is
consulted, and only on a miss is a VarCasted constructed and memoized. -/
def Var.cast (self : VarSig) (cache : List (VarCastType × Nat)) (fresh : Nat)
    (ct : VarCastType) : Except Err CastResult :=
  if ct = .Signed ∧ self.is_signed then .ok .same
  else
    match cache.find? (fun p => decide (p.1 = ct)) with
    | some p => .ok (.cached p.2)
    | none =>
        match VarCasted.make self ct with
        | .error e => .error e
        | .ok n => .ok (.created fresh n)

/-- Claim C5 (code_bug evidence): casting a width-8 SCALAR (size [1]) to
Clock succeeds, because the VarCasted guard tests only the dimension list and
never the width, although the claim (and the message of the guard itself,
which speaks of bit width 1) requires any signal of width above 1 to be
rejected. The second conjunct shows the true half of the claim: a signed cast
of an already-signed signal short-circuits to the same node. -/
theorem C5_clock_cast_eval :
    VarCasted.make { name := "a", var_width := 8 } .Clock
      = .ok { var_width := 8, size := [1], is_signed := false, cast_type := .Clock }
    ∧ Var.cast { name := "b", var_width := 8, is_signed := true } [] 3 .Signed = .ok .same := by
  exact ⟨rfl, rfl⟩

/- ------------------------------------------------------------------ -/
/- Claim C9: VarVarSlice construction.                                  -/
/- ------------------------------------------------------------------ -/

/-- ceil(log2 n) for n at least 1, the value std::ceil(std::log2(n))
computes in VarVarSlice::VarVarSlice (fuel-structured so it evaluates by
kernel reduction). -/
def clog2Aux : Nat → Nat → Nat
  | 0, _ => 0
  | fuel + 1, n => if n ≤ 1 then 0 else clog2Aux fuel ((n + 1) / 2) + 1

/-- Ceiling base-2 logarithm. -/
def clog2 (n : Nat) : Nat := clog2Aux n n

/-- Attribute fields of a VarVarSlice node. -/
structure VVSNode where
  var_width : Nat
  size : List Nat
  is_signed : Bool
  var_high : Nat
  var_low : Nat
deriving Repr, DecidableEq

/-- VarVarSlice::VarVarSlice(parent, slice) (expr.cc lines 319-353), taking
the parent attributes and the TOTAL width of the index signal. The base
VarSlice(parent, 0, 0) call never fails for bounds (0, 0) and every field it
sets is overwritten here. When the parent is a plain scalar (size [1], not
marked as an explicit array) the node gets width 1 and NO validation of the
index width happens; otherwise one dimension layer is peeled and the index
width must equal max(1, ceil(log2(outer dimension))). -/
def VarVarSlice.make (p : VarSig) (idx_width : Nat) : Except Err VVSNode :=
  if p.size = [1] ∧ p.explicit_array = false then
    .ok ⟨1, [1], p.is_signed, 0, 0⟩
  else
    let vw := p.var_width
    let sz := if p.size.length > 1 then p.size.drop 1 else [1]
    let required := max 1 (clog2 (p.size.headD 1))
    if required ≠ idx_width then
      .error (.bitExtractionErr (p.size.headD 1) required idx_width)
    else .ok ⟨vw, sz, p.is_signed, vw - 1, 0⟩

/-- Claim C9 counterexample: indexing a plain width-8 scalar (size [1]) with
an index signal of width 5 SUCCEEDS, although 5 is not the ceiling log2 width
the claim requires for every variable-indexed slice construction (under any
reading of the outer dimension of a scalar - 1 or 8 - the required width
would be 1 or 3, not 5). The validation is only reached for array parents. -/
theorem C9_counterexample :
    VarVarSlice.make { var_width := 8 } 5 = .ok ⟨1, [1], false, 0, 0⟩
    ∧ (5 : Nat) ≠ max 1 (clog2 1) ∧ (5 : Nat) ≠ max 1 (clog2 8) := by
  exact ⟨rfl, by decide, by decide⟩

/-- Claim C9 (amended): for an array parent (or a scalar marked as an
explicit array), construction succeeds exactly when the index width equals
max(1, ceil(log2(outer dimension))) and fails with the bit-extraction error
otherwise; for a plain scalar parent no index-width validation happens and
construction always succeeds with a width-1 node. -/
theorem C9_varvarslice_amended (p : VarSig) (iw : Nat) :
    (p.size = [1] → p.explicit_array = false →
        VarVarSlice.make p iw = .ok ⟨1, [1], p.is_signed, 0, 0⟩)
    ∧ (¬(p.size = [1] ∧ p.explicit_array = false) →
        (iw = max 1 (clog2 (p.size.headD 1)) → (VarVarSlice.make p iw).isOk = true)
        ∧ (iw ≠ max 1 (clog2 (p.size.headD 1)) →
            VarVarSlice.make p iw
              = .error (.bitExtractionErr (p.size.headD 1) (max 1 (clog2 (p.size.headD 1))) iw))) := by
  constructor
  · intro h1 h2
    simp [VarVarSlice.make, h1, h2]
  · intro h
    constructor
    · intro hiw
      simp [VarVarSlice.make, h, hiw, Except.isOk, Except.toBool]
    · intro hiw
      have hne : max 1 (clog2 (p.size.headD 1)) ≠ iw := Ne.symm hiw
      simp only [List.headD_eq_head?_getD] at hne
      simp [VarVarSlice.make, h, hne]

/-- Claim C9 witness: a 4-element array of bytes needs a 2-bit index (accepted)
and rejects a 3-bit index; a plain scalar accepts any index width. -/
theorem C9_varvarslice_witness :
    VarVarSlice.make { var_width := 8, size := [4] } 2 = .ok ⟨8, [1], false, 7, 0⟩
    ∧ VarVarSlice.make { var_width := 8, size := [4] } 3 = .error (.bitExtractionErr 4 2 3)
    ∧ VarVarSlice.make { var_width := 8 } 7 = .ok ⟨1, [1], false, 0, 0⟩ := by
  refine ⟨rfl, ?_, (C9_varvarslice_amended { var_width := 8 } 7).1 rfl rfl⟩
  exact (C9_varvarslice_amended { var_width := 8, size := [4] } 3).2 (by decide) |>.2 (by decide)

/- ------------------------------------------------------------------ -/
/- Claim C2 theorems.                                                   -/
/- ------------------------------------------------------------------ -/

/-- Claim C2 counterexample: for an ARRAY left operand the result width does
not equal the left operand width. Both operands here have total width 8 (left
is 2 x 4, right is a scalar 8), so construction succeeds; the constructor
stores the left total width 8 as the element width of the result while also
copying the dimension list [2], so the resulting expression reports width 16,
not 8. For the relational operator Eq the stored element width is 1 but the
node reports width 2, not 1. -/
theorem C2_counterexample :
    Expr.make .Add { name := "a", var_width := 4, size := [2] }
        (some { name := "b", var_width := 8 })
      = .ok { var_width := 8, size := [2], is_signed := false, op := .Add }
    ∧ ExprNode.width { var_width := 8, size := [2], is_signed := false, op := .Add } = 16
    ∧ VarSig.width { name := "a", var_width := 4, size := [2] } = 8
    ∧ (16 : Nat) ≠ 8
    ∧ Expr.make .Eq { name := "a", var_width := 4, size := [2] }
        (some { name := "b", var_width := 8 })
      = .ok { var_width := 1, size := [2], is_signed := false, op := .Eq }
    ∧ ExprNode.width { var_width := 1, size := [2], is_signed := false, op := .Eq } = 2
    ∧ (2 : Nat) ≠ 1 := by
  refine ⟨rfl, rfl, rfl, by decide, rfl, rfl, by decide⟩

/-- Claim C2 (amended): a binary operator expression fails with the width
mismatch error naming both operands whenever the operand total widths differ,
and otherwise succeeds; on success the stored element width is 1 for
relational and reduction operators and the left operand TOTAL width
otherwise, the dimension list is copied from the left operand, and the sign
is the conjunction of the operand signs (for unary constructions, the left
operand sign, with no width check). Consequently, for a SCALAR left operand
(size [1]) the resulting width equals 1 respectively the left operand width,
as the original claim states; for array left operands the total width is
that element width multiplied by the left dimensions again. -/
theorem C2_expr_amended (op : ExprOp) (l r : VarSig) :
    (l.width ≠ r.width →
        Expr.make op l (some r) = .error (.widthMismatch l.name l.width r.name r.width))
    ∧ (l.width = r.width →
        Expr.make op l (some r)
          = .ok { var_width := if is_relational_op op || is_reduction_op op then 1 else l.width
                  size := l.size
                  is_signed := l.is_signed && r.is_signed
                  op := op })
    ∧ Expr.make op l none
        = .ok { var_width := if is_relational_op op || is_reduction_op op then 1 else l.width
                size := l.size
                is_signed := l.is_signed
                op := op }
    ∧ (l.size = [1] → ∀ e : ExprNode, e.size = [1] →
        e.width = e.var_width) := by
  refine ⟨?_, ?_, rfl, ?_⟩
  · intro h
    simp [Expr.make, h]
  · intro h
    simp [Expr.make, h]
  · intro _ e he
    simp [ExprNode.width, he, List.foldl]

/-- Claim C2 witness: two signed width-4 scalars give a signed width-4 Add
expression and a width-1 LessThan expression; mismatched widths (4 against 8)
give the width-mismatch error naming both operands. -/
theorem C2_expr_witness :
    Expr.make .Add { name := "x", var_width := 4, is_signed := true }
        (some { name := "y", var_width := 4, is_signed := true })
      = .ok { var_width := 4, size := [1], is_signed := true, op := .Add }
    ∧ Expr.make .LessThan { name := "x", var_width := 4, is_signed := true }
        (some { name := "y", var_width := 4, is_signed := true })
      = .ok { var_width := 1, size := [1], is_signed := true, op := .LessThan }
    ∧ Expr.make .Add { name := "x", var_width := 4 } (some { name := "z", var_width := 8 })
      = .error (.widthMismatch "x" 4 "z" 8) := by
  refine ⟨?_, ?_, ?_⟩
  · exact (C2_expr_amended .Add { name := "x", var_width := 4, is_signed := true }
      { name := "y", var_width := 4, is_signed := true }).2.1 rfl
  · exact (C2_expr_amended .LessThan { name := "x", var_width := 4, is_signed := true }
      { name := "y", var_width := 4, is_signed := true }).2.1 rfl
  · exact (C2_expr_amended .Add { name := "x", var_width := 4 }
      { name := "z", var_width := 8 }).1 (by decide)

/- ------------------------------------------------------------------ -/
/- Claim C6: add_sink / add_source forwarding through wrapper nodes.    -/
/- ------------------------------------------------------------------ -/

/-- A wrapper-node tree for the link-set notification dispatch: a table
variable, or a VarSlice / VarExtend / VarCasted wrapper over a parent node.
Each node carries its own identifier, standing for the identity of its own
link sets. -/
inductive WNode where
  | base (id : Nat)
  | slice (id : Nat) (parent : WNode)
  | extend (id : Nat) (parent : WNode)
  | casted (id : Nat) (parent : WNode)
deriving Repr, DecidableEq

/-- The while loop of VarSlice::add_sink / add_source (expr.cc 1028-1044):
walk past every slice ancestor to the first non-slice ancestor. -/
def stripSlices : WNode → WNode
  | .slice _ p => stripSlices p
  | w => w

/-- The real underlying parent signal of a wrapper chain. -/
def WNode.rootVar : WNode → Nat
  | .base i => i
  | .slice _ p => p.rootVar
  | .extend _ p => p.rootVar
  | .casted _ p => p.rootVar

/-- Whether the node is a chain of slices over a table variable. -/
def pureSliceBase : WNode → Bool
  | .base _ => true
  | .slice _ p => pureSliceBase p
  | _ => false

mutual
/-- Sink-notification dispatch, returning the identifier of the node whose
sinks_ set records the statement. Var::add_sink on a table variable records
in the own set (the base-class default of the upstream header; spec section 3
gives every signal its own sink set). VarSlice::add_sink (expr.cc 1028-1035)
walks to the first non-slice ancestor and notifies it; VarExtend::add_sink
(line 743) and VarCasted::add_sink (line 573) notify their parent. -/
def WNode.add_sink : WNode → Except Err Nat
  | .base i => .ok i
  | .slice _ p => addSinkStripped p
  | .extend _ p => WNode.add_sink p
  | .casted _ p => WNode.add_sink p

/-- The tail of VarSlice::add_sink: strip the remaining slice ancestors, then
virtual-dispatch on the first non-slice ancestor. -/
def addSinkStripped : WNode → Except Err Nat
  | .slice _ p => addSinkStripped p
  | .base i => .ok i
  | .extend _ p => WNode.add_sink p
  | .casted _ p => WNode.add_sink p
end

/-- The tail of VarSlice::add_source after the strip loop: the
virtual-dispatch outcomes on the first non-slice ancestor. -/
def addSourceStripped : WNode → Except Err Nat
  | .slice _ p => addSourceStripped p
  | .base i => .ok i
  | .extend _ _ => .error .extendSourceErr
  | .casted i _ => .ok i

/-- Source-notification dispatch. Var::add_source on a table variable records
in the own set; VarSlice::add_source (expr.cc 1037-1044) walks to the first
non-slice ancestor and notifies it; VarExtend::add_source (lines 737-741)
THROWS; VarCasted does not override add_source, so the base default records
the statement in the cast wrapper itself. -/
def WNode.add_source : WNode → Except Err Nat
  | .base i => .ok i
  | .slice _ p => addSourceStripped p
  | .extend _ _ => .error .extendSourceErr
  | .casted i _ => .ok i

theorem addSinkStripped_eq_add_sink (w : WNode) : addSinkStripped w = w.add_sink := by
  induction w with
  | base i => rfl
  | slice i p ih => simp [addSinkStripped, WNode.add_sink, ih]
  | extend i p ih => rfl
  | casted i p ih => rfl

theorem addSourceStripped_pure (w : WNode) (h : pureSliceBase w = true) :
    addSourceStripped w = .ok w.rootVar := by
  induction w with
  | base i => rfl
  | slice i p ih => simpa [addSourceStripped, WNode.rootVar] using ih (by simpa [pureSliceBase] using h)
  | extend i p ih => simp [pureSliceBase] at h
  | casted i p ih => simp [pureSliceBase] at h

/-- Claim C6 counterexample: delivering a source notification to an extension
wrapper does not record the statement in the link set of the underlying
parent signal (identifier 0); it fails with the extend-source error. -/
theorem C6_counterexample :
    WNode.add_source (.extend 1 (.base 0)) = .error .extendSourceErr
    ∧ WNode.rootVar (.extend 1 (.base 0)) = 0 := by
  exact ⟨rfl, rfl⟩

/-- Claim C6 (amended): a SINK notification on any chain of
extension/cast/slice wrappers reaches the link set of the real underlying
parent signal; a SOURCE notification does so only through slice wrappers
(over a slice chain rooted at a table variable) - on an extension wrapper it
fails outright, and on a cast wrapper it is recorded in the cast node itself
rather than the underlying parent. -/
theorem C6_forwarding_amended :
    (∀ w : WNode, w.add_sink = .ok w.rootVar)
    ∧ (∀ (i : Nat) (p : WNode), WNode.add_source (.extend i p) = .error .extendSourceErr)
    ∧ (∀ (i : Nat) (p : WNode), WNode.add_source (.casted i p) = .ok i)
    ∧ (∀ w : WNode, pureSliceBase w = true → w.add_source = .ok w.rootVar) := by
  refine ⟨?_, fun i p => rfl, fun i p => rfl, ?_⟩
  · intro w
    induction w with
    | base i => rfl
    | slice i p ih => simp [WNode.add_sink, addSinkStripped_eq_add_sink, ih, WNode.rootVar]
    | extend i p ih => simp [WNode.add_sink, ih, WNode.rootVar]
    | casted i p ih => simp [WNode.add_sink, ih, WNode.rootVar]
  · intro w h
    match w, h with
    | .base i, _ => rfl
    | .slice i p, h =>
        simpa [WNode.add_source, WNode.rootVar] using
          addSourceStripped_pure p (by simpa [pureSliceBase] using h)

/-- Claim C6 witness: a slice of a slice of variable 4 forwards a source
notification to variable 4. -/
theorem C6_forwarding_witness :
    WNode.add_source (.slice 6 (.slice 5 (.base 4))) = .ok 4 := by
  exact C6_forwarding_amended.2.2.2 (.slice 6 (.slice 5 (.base 4))) rfl

/- ------------------------------------------------------------------ -/
/- Claim C7: Var::concat memoization and the VarConcat sign check.      -/
/- ------------------------------------------------------------------ -/

/-- The attributes of a variable as seen by the concatenation code; the
identifier stands for the C++ object identity (two CVar values with the same
identifier describe the same variable, whose attributes never change after
construction). -/
structure CVar where
  name : String
  id : Nat
  width : Nat
  is_signed : Bool
deriving Repr, DecidableEq

/-- A VarConcat node: its identifier, its flattened operand list vars_, and
its width. -/
structure ConcatEntry where
  cid : Nat
  operands : List CVar
  width : Nat
deriving Repr, DecidableEq

/-- VarConcat::VarConcat(first, second) (expr.cc lines 696-705): reject
operands of differing signedness, else build the two-operand node whose width
is the sum of the operand widths. -/
def VarConcat.make (first second : CVar) (cid : Nat) : Except Err ConcatEntry :=
  if first.is_signed ≠ second.is_signed then
    .error (.concatSignErr first.name second.name)
  else
    .ok { cid := cid, operands := [first, second], width := first.width + second.width }

/-- A variable together with its concat_vars_ memoization cache. -/
structure CVarState where
  self : CVar
  concat_vars : List ConcatEntry
deriving Repr, DecidableEq

/-- Var::concat (expr.cc lines 174-188): scan the concat_vars_ cache for an
existing two-operand concatenation whose trailing operand is the requested
one and return it; otherwise construct a fresh VarConcat (which checks the
signs) and memoize it. -/
def Var.concat (s : CVarState) (other : CVar) (fresh : Nat) :
    Except Err (Nat × CVarState) :=
  match s.concat_vars.find? (fun e => e.operands.length == 2 && e.operands.getLast? == some other) with
  | some e => .ok (e.cid, s)
  | none =>
      match VarConcat.make s.self other fresh with
      | .error e => .error e
      | .ok e => .ok (fresh, { s with concat_vars := s.concat_vars ++ [e] })

/-- Cache entries reachable by construction always have a trailing operand
whose sign matches the owning variable (the VarConcat constructor enforces
it); two-operand entries are exactly those Var::concat can return. -/
def SignOk (s : CVarState) : Prop :=
  ∀ e ∈ s.concat_vars, ∀ o, e.operands.getLast? = some o → e.operands.length = 2 →
    o.is_signed = s.self.is_signed

/-- Claim C7: concatenating the same trailing operand twice returns the
identical node and leaves the cache unchanged (no duplicate allocation); and
on any cache whose entries respect the construction sign invariant,
concatenating operands of differing signedness fails with the sign error
naming both operands. -/
theorem C7_concat_memo (s : CVarState) (other : CVar) (f1 f2 : Nat) :
    (∀ (c : Nat) (s' : CVarState),
        Var.concat s other f1 = .ok (c, s') → Var.concat s' other f2 = .ok (c, s'))
    ∧ (SignOk s → other.is_signed ≠ s.self.is_signed →
        Var.concat s other f1 = .error (.concatSignErr s.self.name other.name)) := by
  constructor
  · intro c s' h
    unfold Var.concat at h ⊢
    cases hfind : s.concat_vars.find?
        (fun e => e.operands.length == 2 && e.operands.getLast? == some other) with
    | some e =>
        rw [hfind] at h
        obtain ⟨rfl, rfl⟩ : e.cid = c ∧ s = s' := by
          simpa using h
        rw [hfind]
    | none =>
        rw [hfind] at h
        cases hmk : VarConcat.make s.self other f1 with
        | error e => rw [hmk] at h; simp at h
        | ok e =>
            rw [hmk] at h
            obtain ⟨rfl, rfl⟩ : f1 = c ∧ { s with concat_vars := s.concat_vars ++ [e] } = s' := by
              simpa using h
            have he : e = { cid := f1, operands := [s.self, other],
                            width := s.self.width + other.width } := by
              unfold VarConcat.make at hmk
              by_cases hs : s.self.is_signed ≠ other.is_signed
              · simp [hs] at hmk
              · simp [hs] at hmk
                exact hmk.symm
            rw [List.find?_append, hfind]
            simp [he]
  · intro hso hsign
    unfold Var.concat
    have hfind : s.concat_vars.find?
        (fun e => e.operands.length == 2 && e.operands.getLast? == some other) = none := by
      rw [List.find?_eq_none]
      intro e he
      simp only [Bool.and_eq_true, beq_iff_eq]
      rintro ⟨hlen, hlast⟩
      exact absurd (hso e he other hlast hlen) hsign
    rw [hfind]
    have : s.self.is_signed ≠ other.is_signed := fun hh => hsign (by rw [hh])
    simp [VarConcat.make, this]

/-- Claim C7 witness: concatenating b onto a allocates node 10; repeating the
call returns node 10 again with the cache unchanged; concatenating the
unsigned a with the signed c fails with the sign error. -/
theorem C7_concat_witness :
    Var.concat { self := { name := "a", id := 0, width := 4, is_signed := false }, concat_vars := [] }
        { name := "b", id := 1, width := 4, is_signed := false } 10
      = .ok (10, { self := { name := "a", id := 0, width := 4, is_signed := false },
                   concat_vars := [{ cid := 10,
                                     operands := [{ name := "a", id := 0, width := 4, is_signed := false },
                                                  { name := "b", id := 1, width := 4, is_signed := false }],
                                     width := 8 }] })
    ∧ Var.concat { self := { name := "a", id := 0, width := 4, is_signed := false },
                   concat_vars := [{ cid := 10,
                                     operands := [{ name := "a", id := 0, width := 4, is_signed := false },
                                                  { name := "b", id := 1, width := 4, is_signed := false }],
                                     width := 8 }] }
        { name := "b", id := 1, width := 4, is_signed := false } 11
      = .ok (10, { self := { name := "a", id := 0, width := 4, is_signed := false },
                   concat_vars := [{ cid := 10,
                                     operands := [{ name := "a", id := 0, width := 4, is_signed := false },
                                                  { name := "b", id := 1, width := 4, is_signed := false }],
                                     width := 8 }] })
    ∧ Var.concat { self := { name := "a", id := 0, width := 4, is_signed := false }, concat_vars := [] }
        { name := "c", id := 2, width := 4, is_signed := true } 12
      = .error (.concatSignErr "a" "c") := by
  refine ⟨rfl, ?_, ?_⟩
  · exact (C7_concat_memo
      { self := { name := "a", id := 0, width := 4, is_signed := false }, concat_vars := [] }
      { name := "b", id := 1, width := 4, is_signed := false } 10 11).1 _ _ rfl
  · exact (C7_concat_memo
      { self := { name := "a", id := 0, width := 4, is_signed := false }, concat_vars := [] }
      { name := "c", id := 2, width := 4, is_signed := true } 12 0).2
      (by intro e he; simp at he) (by decide)

/- ------------------------------------------------------------------ -/
/- Claim C8: Param::set_value propagation.                              -/
/- ------------------------------------------------------------------ -/

/-- Range check of Const::Const(generator, value, width, is_signed) (expr.cc
lines 494-520): a signed value must fit the two-complement range of the
width; an unsigned value is reinterpreted as uint64 bits (mod 2^64) and must
not exceed 2^width - 1. -/
def constFits (value : Int) (width : Nat) (is_signed : Bool) : Bool :=
  if is_signed then
    decide (-(2 ^ (width - 1) : Int) ≤ value ∧ value ≤ 2 ^ (width - 1) - 1)
  else
    decide ((value % (2 ^ 64 : Int)).toNat ≤ 2 ^ width - 1)

/-- Const::set_value (expr.cc lines 586-594): re-run the constructor range
check inside a try block; on failure only a message is printed to stderr and
the stored value stays unchanged - no error propagates. -/
def constSetValue (old new_value : Int) (width : Nat) (is_signed : Bool) : Int :=
  if constFits new_value width is_signed then new_value else old

/-- The loop over param_vars_ in Param::set_value, storing the value into the
uint32 var_width_ field of each dependent signal. -/
def widthFold (ids : List Nat) (val : Nat) (ws : Nat → Nat) : Nat → Nat :=
  ids.foldl (fun w i => fun j => if j = i then val else w j) ws

theorem widthFold_spec (ids : List Nat) (val : Nat) (ws : Nat → Nat) :
    (∀ i ∈ ids, widthFold ids val ws i = val)
    ∧ (∀ i, i ∉ ids → widthFold ids val ws i = ws i) := by
  induction ids generalizing ws with
  | nil => simp [widthFold]
  | cons a rest ih =>
      have hstep : widthFold (a :: rest) val ws
          = widthFold rest val (fun j => if j = a then val else ws j) := rfl
      constructor
      · intro i hi
        rcases List.mem_cons.mp hi with rfl | hi2
        · by_cases hmem : i ∈ rest
          · rw [hstep]; exact (ih _).1 i hmem
          · rw [hstep, (ih _).2 i hmem]; simp
        · rw [hstep]; exact (ih _).1 i hi2
      · intro i hi
        have hia : i ≠ a := fun hh => hi (hh ▸ List.mem_cons_self a rest)
        have hir : i ∉ rest := fun hh => hi (List.mem_cons_of_mem a hh)
        rw [hstep, (ih _).2 i hir]
        simp [hia]

/-- A parameter: its stored value, width, sign flag, the identifiers of the
signals whose width it parametrizes (param_vars_), and the chained dependent
parameters (param_params_). Chains built through Param::set_value(param) are
finite and acyclic (a cycle would make the C++ recursion diverge), so the
chain structure is a tree. -/
inductive ParamT where
  | node (value : Int) (width : Nat) (is_signed : Bool)
      (param_vars : List Nat) (children : List ParamT)
deriving Repr

/-- Stored value of the parameter. -/
def ParamT.value : ParamT → Int
  | .node v _ _ _ _ => v

/-- Dependent-signal identifiers of the parameter itself. -/
def ParamT.param_vars : ParamT → List Nat
  | .node _ _ _ pv _ => pv

mutual
/-- Identifiers of every signal parametrized by the parameter or by a
parameter chained (transitively) below it. -/
def ParamT.varIdsAll : ParamT → List Nat
  | .node _ _ _ pv ch => pv ++ ParamT.varIdsAllList ch

/-- varIdsAll over a list of chained parameters. -/
def ParamT.varIdsAllList : List ParamT → List Nat
  | [] => []
  | p :: ps => p.varIdsAll ++ ParamT.varIdsAllList ps
end

mutual
/-- The (value, width, sign) triple of every parameter in the tree, in
preorder. -/
def ParamT.nodeList : ParamT → List (Int × Nat × Bool)
  | .node v w s _ ch => (v, w, s) :: ParamT.nodeListList ch

/-- nodeList over a list of chained parameters. -/
def ParamT.nodeListList : List ParamT → List (Int × Nat × Bool)
  | [] => []
  | p :: ps => p.nodeList ++ ParamT.nodeListList ps
end

mutual
/-- Param::set_value (expr.cc lines 620-638): reject a non-positive value
once the parameter has dependent signals; run the Const range check (which
silently keeps the old stored value when the new one does not fit the
parameter width); store the value (as uint32) into the width of every
dependent signal; recurse with the same value into every chained
parameter. -/
def Param.set_value (p : ParamT) (v : Int) (ws : Nat → Nat) :
    Except Err (ParamT × (Nat → Nat)) :=
  match p with
  | .node value width sgn pvars children =>
      if v ≤ 0 ∧ pvars ≠ [] then .error (.nonPositiveParamErr v)
      else
        let value' := constSetValue value v width sgn
        let ws' := widthFold pvars (v.toNat % 2 ^ 32) ws
        match Param.set_value_list children v ws' with
        | .error e => .error e
        | .ok (children', ws'') => .ok (.node value' width sgn pvars children', ws'')

/-- The propagation loop over param_params_. -/
def Param.set_value_list (ps : List ParamT) (v : Int) (ws : Nat → Nat) :
    Except Err (List ParamT × (Nat → Nat)) :=
  match ps with
  | [] => .ok ([], ws)
  | p :: rest =>
      match Param.set_value p v ws with
      | .error e => .error e
      | .ok (p', ws') =>
          match Param.set_value_list rest v ws' with
          | .error e => .error e
          | .ok (rest', ws'') => .ok (p' :: rest', ws'')
end

mutual
theorem setValue_spec (p : ParamT) (v : Int) (ws : Nat → Nat)
    (h1 : 0 < v) (h2 : v < 2 ^ 32) :
    ∃ p' ws', Param.set_value p v ws = .ok (p', ws')
      ∧ (∀ i ∈ p.varIdsAll, ws' i = v.toNat)
      ∧ (∀ i, i ∉ p.varIdsAll → ws' i = ws i)
      ∧ p'.nodeList = p.nodeList.map
          (fun t => (if constFits v t.2.1 t.2.2 then v else t.1, t.2.1, t.2.2)) := by
  match p with
  | .node value width sgn pvars children =>
      have hcond : ¬(v ≤ 0 ∧ pvars ≠ []) := fun hh => absurd h1 (not_lt.mpr hh.1)
      have hmod : v.toNat % 2 ^ 32 = v.toNat := by
        refine Nat.mod_eq_of_lt ?_
        have : (v.toNat : Int) < 2 ^ 32 := by
          rw [Int.toNat_of_nonneg (le_of_lt h1)]
          exact h2
        exact_mod_cast this
      set ws1 := widthFold pvars (v.toNat % 2 ^ 32) ws with hws1
      obtain ⟨ch', ws2, hok, hmem, hnotmem, hnodes⟩ := setValueList_spec children v ws1 h1 h2
      refine ⟨.node (constSetValue value v width sgn) width sgn pvars ch', ws2, ?_, ?_, ?_, ?_⟩
      · rw [Param.set_value]
        simp only [if_neg hcond, ← hws1, hok]
      · intro i hi
        rw [ParamT.varIdsAll, List.mem_append] at hi
        rcases hi with hi | hi
        · by_cases hich : i ∈ ParamT.varIdsAllList children
          · exact hmem i hich
          · rw [hnotmem i hich, hws1, hmod]
            exact (widthFold_spec pvars v.toNat ws).1 i hi
        · exact hmem i hi
      · intro i hi
        rw [ParamT.varIdsAll, List.mem_append, not_or] at hi
        rw [hnotmem i hi.2, hws1, hmod]
        exact (widthFold_spec pvars v.toNat ws).2 i hi.1
      · rw [ParamT.nodeList, ParamT.nodeList, List.map_cons, hnodes, constSetValue]

theorem setValueList_spec (ps : List ParamT) (v : Int) (ws : Nat → Nat)
    (h1 : 0 < v) (h2 : v < 2 ^ 32) :
    ∃ ps' ws', Param.set_value_list ps v ws = .ok (ps', ws')
      ∧ (∀ i ∈ ParamT.varIdsAllList ps, ws' i = v.toNat)
      ∧ (∀ i, i ∉ ParamT.varIdsAllList ps → ws' i = ws i)
      ∧ ParamT.nodeListList ps' = (ParamT.nodeListList ps).map
          (fun t => (if constFits v t.2.1 t.2.2 then v else t.1, t.2.1, t.2.2)) := by
  match ps with
  | [] =>
      refine ⟨[], ws, ?_, ?_, ?_, ?_⟩
      · rw [Param.set_value_list]
      · intro i hi; simp [ParamT.varIdsAllList] at hi
      · intro i _; rfl
      · simp [ParamT.nodeListList]
  | p :: rest =>
      obtain ⟨p', ws1, hok1, hmem1, hnot1, hnodes1⟩ := setValue_spec p v ws h1 h2
      obtain ⟨rest', ws2, hok2, hmem2, hnot2, hnodes2⟩ := setValueList_spec rest v ws1 h1 h2
      refine ⟨p' :: rest', ws2, ?_, ?_, ?_, ?_⟩
      · rw [Param.set_value_list]
        simp only [hok1, hok2]
      · intro i hi
        rw [ParamT.varIdsAllList, List.mem_append] at hi
        rcases hi with hi | hi
        · by_cases hir : i ∈ ParamT.varIdsAllList rest
          · exact hmem2 i hir
          · rw [hnot2 i hir]; exact hmem1 i hi
        · exact hmem2 i hi
      · intro i hi
        rw [ParamT.varIdsAllList, List.mem_append, not_or] at hi
        rw [hnot2 i hi.2]
        exact hnot1 i hi.1
      · rw [ParamT.nodeListList, ParamT.nodeListList, List.map_append, hnodes1, hnodes2]
end

/-- Claim C8 counterexample: a parameter of width 32 with a chained dependent
parameter of width 4; setting the value 100 succeeds, stores 100 in the first
parameter, but silently leaves the chained parameter at its old value 0
(the re-run Const range check fails for width 4 and Const::set_value swallows
the failure), so the chained dependent parameter does NOT receive the value
the claim says it is set to. -/
theorem C8_counterexample :
    (Param.set_value (.node 0 32 false [] [.node 0 4 false [] []]) 100 (fun _ => 0)).toOption.map
        (fun r => ParamT.nodeList r.1)
      = some [(100, 32, false), (0, 4, false)]
    ∧ ((0 : Int) ≠ 100) := by
  constructor
  · have h4 : constFits 100 4 false = false := by decide
    have h32 : constFits 100 32 false = true := by decide
    simp [Param.set_value, Param.set_value_list, constSetValue, h4, h32,
      ParamT.nodeList, ParamT.nodeListList]
    refine ⟨_, ⟨_, rfl⟩, ?_⟩
    simp [ParamT.nodeList, ParamT.nodeListList]
  · decide

mutual
theorem setValue_noVars (p : ParamT) (v : Int) (ws : Nat → Nat)
    (h : p.varIdsAll = []) :
    ∃ p' ws', Param.set_value p v ws = .ok (p', ws') := by
  match p with
  | .node value width sgn pvars children =>
      obtain ⟨hp, hc⟩ := List.append_eq_nil.mp (by rw [ParamT.varIdsAll] at h; exact h)
      obtain ⟨cs', ws', hok⟩ :=
        setValueList_noVars children v (widthFold pvars (v.toNat % 2 ^ 32) ws) hc
      refine ⟨.node (constSetValue value v width sgn) width sgn pvars cs', ws', ?_⟩
      have hcond : ¬(v ≤ 0 ∧ pvars ≠ []) := by
        rintro ⟨_, hne⟩
        exact hne hp
      rw [Param.set_value]
      simp only [if_neg hcond, hok]

theorem setValueList_noVars (ps : List ParamT) (v : Int) (ws : Nat → Nat)
    (h : ParamT.varIdsAllList ps = []) :
    ∃ ps' ws', Param.set_value_list ps v ws = .ok (ps', ws') := by
  match ps with
  | [] => exact ⟨[], ws, by rw [Param.set_value_list]⟩
  | p :: rest =>
      obtain ⟨hp, hr⟩ := List.append_eq_nil.mp (by rw [ParamT.varIdsAllList] at h; exact h)
      obtain ⟨p', w1, hok1⟩ := setValue_noVars p v ws hp
      obtain ⟨rest', w2, hok2⟩ := setValueList_noVars rest v w1 hr
      refine ⟨p' :: rest', w2, ?_⟩
      rw [Param.set_value_list]
      simp only [hok1, hok2]
end

mutual
theorem setValue_neg (p : ParamT) (v : Int) (ws : Nat → Nat)
    (h1 : v ≤ 0) (h2 : p.varIdsAll ≠ []) :
    Param.set_value p v ws = .error (.nonPositiveParamErr v) := by
  match p with
  | .node value width sgn pvars children =>
      by_cases hp : pvars = []
      · have hc : ParamT.varIdsAllList children ≠ [] := by
          intro hcc
          exact h2 (by rw [ParamT.varIdsAll, hp, hcc]; rfl)
        have hcond : ¬(v ≤ 0 ∧ pvars ≠ []) := by
          rintro ⟨_, hne⟩
          exact hne hp
        rw [Param.set_value]
        simp only [if_neg hcond,
          setValueList_neg children v (widthFold pvars (v.toNat % 2 ^ 32) ws) h1 hc]
      · rw [Param.set_value]
        rw [if_pos ⟨h1, hp⟩]

theorem setValueList_neg (ps : List ParamT) (v : Int) (ws : Nat → Nat)
    (h1 : v ≤ 0) (h2 : ParamT.varIdsAllList ps ≠ []) :
    Param.set_value_list ps v ws = .error (.nonPositiveParamErr v) := by
  match ps with
  | [] => exact absurd rfl h2
  | p :: rest =>
      by_cases hp : p.varIdsAll = []
      · have hr : ParamT.varIdsAllList rest ≠ [] := by
          intro hrr
          exact h2 (by rw [ParamT.varIdsAllList, hp, hrr]; rfl)
        obtain ⟨p', w1, hok1⟩ := setValue_noVars p v ws hp
        rw [Param.set_value_list]
        simp only [hok1, setValueList_neg rest v w1 h1 hr]
      · rw [Param.set_value_list]
        simp only [setValue_neg p v ws h1 hp]
end

/-- Claim C8 (amended): setting a positive value v below 2^32 on a parameter
always succeeds; afterwards every signal parametrized by the parameter or by
any chained parameter has width v, every other width is untouched, and every
parameter of the chain whose own width range can represent v stores v, while
a chained parameter whose range check fails silently keeps its old stored
value (widths of its dependent signals are still updated). Setting a
non-positive value always fails once at least one dependent signal exists:
the dependent may belong to the parameter itself or to any chained
parameter, whose guard the recursive cascade reaches; when no parameter in
the chain has a dependent signal, the call succeeds. -/
theorem C8_set_value_amended (p : ParamT) (v : Int) (ws : Nat → Nat) :
    (0 < v → v < 2 ^ 32 →
      ∃ p' ws', Param.set_value p v ws = .ok (p', ws')
        ∧ (∀ i ∈ p.varIdsAll, ws' i = v.toNat)
        ∧ (∀ i, i ∉ p.varIdsAll → ws' i = ws i)
        ∧ p'.nodeList = p.nodeList.map
            (fun t => (if constFits v t.2.1 t.2.2 then v else t.1, t.2.1, t.2.2)))
    ∧ (v ≤ 0 → p.varIdsAll ≠ [] →
        Param.set_value p v ws = .error (.nonPositiveParamErr v))
    ∧ (v ≤ 0 → p.varIdsAll = [] →
        ∃ p' ws', Param.set_value p v ws = .ok (p', ws')) := by
  exact ⟨fun h1 h2 => setValue_spec p v ws h1 h2,
    fun h1 h2 => setValue_neg p v ws h1 h2,
    fun _ h2 => setValue_noVars p v ws h2⟩

/-- Claim C8 witness: a width-32 parameter with two dependent signals (1 and
2) and a chained width-32 parameter with dependent signal 3; setting 16
succeeds, gives all three signals width 16, and stores 16 in both parameters;
setting -1 fails, and it also fails on a parameter with no dependent signal
of its own whose chained parameter has one. -/
theorem C8_set_value_witness :
    (∃ p' ws', Param.set_value (.node 0 32 false [1, 2] [.node 0 32 false [3] []]) 16 (fun _ => 8)
        = .ok (p', ws')
      ∧ (∀ i ∈ ParamT.varIdsAll (.node 0 32 false [1, 2] [.node 0 32 false [3] []]), ws' i = 16)
      ∧ (∀ i, i ∉ ParamT.varIdsAll (.node 0 32 false [1, 2] [.node 0 32 false [3] []]) → ws' i = 8)
      ∧ p'.nodeList = [(16, 32, false), (16, 32, false)])
    ∧ Param.set_value (.node 0 32 false [1, 2] [.node 0 32 false [3] []]) (-1) (fun _ => 8)
      = .error (.nonPositiveParamErr (-1))
    ∧ Param.set_value (.node 0 32 false [] [.node 0 32 false [3] []]) (-1) (fun _ => 8)
      = .error (.nonPositiveParamErr (-1)) := by
  refine ⟨?_, ?_, ?_⟩
  · obtain ⟨p', ws', hok, hmem, hnot, hnodes⟩ :=
      (C8_set_value_amended (.node 0 32 false [1, 2] [.node 0 32 false [3] []]) 16
        (fun _ => 8)).1 (by decide) (by decide)
    refine ⟨p', ws', hok, ?_, ?_, ?_⟩
    · intro i hi
      simpa using hmem i hi
    · intro i hi
      exact hnot i hi
    · rw [hnodes]
      have : constFits 16 32 false = true := by decide
      simp [ParamT.nodeList, ParamT.nodeListList, this]
  · exact (C8_set_value_amended (.node 0 32 false [1, 2] [.node 0 32 false [3] []]) (-1)
      (fun _ => 8)).2.1 (by decide)
      (by simp [ParamT.varIdsAll, ParamT.varIdsAllList])
  · exact (C8_set_value_amended (.node 0 32 false [] [.node 0 32 false [3] []]) (-1)
      (fun _ => 8)).2.1 (by decide)
      (by simp [ParamT.varIdsAll, ParamT.varIdsAllList])

/- ------------------------------------------------------------------ -/
/- Claims C1 and C10: the relocation engine (move_src_to/move_sink_to). -/
/- ------------------------------------------------------------------ -/

/-- Pointwise function update (used for the mutable tables of the state). -/
def updFn {α : Type} (f : Nat → α) (i : Nat) (a : α) : Nat → α :=
  fun j => if j = i then a else f j

@[simp] theorem updFn_same {α : Type} (f : Nat → α) (i : Nat) (a : α) : updFn f i a i = a := by
  simp [updFn]

@[simp] theorem updFn_other {α : Type} (f : Nat → α) (i : Nat) (a : α) (j : Nat) (h : j ≠ i) :
    updFn f i a j = f j := by
  simp [updFn, h]

/-- The width and sign guards of Var::move_linked_to (expr.cc lines 980-995),
comparing the linked variable (first argument) with its replacement (second).
The slice/concat/cast cache transfer that follows the guards is bookkeeping
over state outside this model. At both call sites inside stmt_set_left,
stmt_set_right and change_var_expr the statement operand reference has
ALREADY been reassigned to the replacement when the call happens (the C++
code holds a reference into the statement and reassigns through it first),
so the guards there compare the replacement with itself and never fire. -/
def move_linked_check (env : Env) (old nv : Nat) : Except Err Unit :=
  if (env nv).width ≠ (env old).width then .error (.moveWidthErr (env old).width (env nv).width)
  else if (env nv).is_signed ≠ (env old).is_signed then .error .moveSignErr
  else .ok ()

/-- The slice-collection loop of set_var_parent (expr.cc lines 826-850):
the (high, low) bound pairs of the slice chain, outermost first, together
with the first non-slice ancestor. -/
def collectSlices : Op1 → List (Nat × Nat) × Op1
  | .slice p h l _ _ _ =>
      let r := collectSlices p
      ((h, l) :: r.1, r.2)
  | o => ([], o)

/-- The variable an operand ultimately writes: the root of a chain of zero or
more slices when that root is a direct variable reference (an expression
operand has no single written variable). -/
def writtenVar (o : Op1) : Option Nat :=
  match collectSlices o with
  | (_, .base v) => some v
  | _ => none

/-- An operand is well built when re-slicing its own root with its own bound
sequence (innermost first) reproduces it - true of every slice chain the
slicing interface Var::operator[] actually produces. -/
def wellBuilt (env : Env) (o : Op1) : Prop :=
  (collectSlices o).1.reverse.foldlM (fun acc hl => Var.index env acc hl.1 hl.2)
      (collectSlices o).2
    = .ok o

/-- set_var_parent (expr.cc lines 826-850): walk the slice chain of var down
to its root; when the root is not the relocation target, fail (or, when
check_target is false, report no change as none); otherwise re-root the
chain onto new_var by re-slicing new_var with the same bound sequence,
innermost slice first. The per-level re-slice VarSlice::slice_var is declared
in the missing header; spec section 4.6 (b) describes it as re-slicing the
new variable with the same bounds, which is Var::operator[] with the stored
(high, low) pair of the level. -/
def set_var_parent (env : Env) (o : Op1) (target nv : Nat) (check_target : Bool) :
    Except Err (Option Op1) :=
  let c := collectSlices o
  if c.2 ≠ .base target then
    if check_target then .error .targetNotFoundErr else .ok none
  else if c.1 = [] then .error .sliceNullErr
  else
    match c.1.reverse.foldlM (fun acc hl => Var.index env acc hl.1 hl.2) (Op1.base nv) with
    | .error e => .error e
    | .ok o' => .ok (some o')

/-- VarConcat::replace_var (expr.cc lines 714-719): replace the FIRST
occurrence of the target in the flattened operand list. -/
def replaceFirst : List Nat → Nat → Nat → List Nat
  | [], _, _ => []
  | x :: xs, t, n => if x = t then n :: xs else x :: replaceFirst xs t n

/-- The per-operand steps of change_var_expr (expr.cc lines 861-876): replace
a direct occurrence of the target (the move_linked_to that follows runs on
the already-reassigned reference, hence on the replacement against itself),
then re-root the operand when it is a slice (check_target false: a slice
rooted elsewhere is silently kept). -/
def exprOperandFix (env : Env) (target nv : Nat) (x : Op1) : Except Err Op1 :=
  let x1 := if x = .base target then Op1.base nv else x
  match (if x = .base target then move_linked_check env nv nv else .ok ()) with
  | .error e => .error e
  | .ok _ =>
      match x1 with
      | .slice p h l i vh vl =>
          match set_var_parent env (.slice p h l i vh vl) target nv false with
          | .error e => .error e
          | .ok (some y) => .ok y
          | .ok none => .ok (.slice p h l i vh vl)
      | y => .ok y

/-- change_var_expr (expr.cc lines 852-882): recurse into expression
children, then fix both operands (direct replacement, then slice
re-rooting), and for a concatenation also patch the flattened vars_ list.
The direct-replacement steps never fail (the guard compares the replacement
with itself, see move_linked_check), so performing the left operand fix
before the right one preserves the source error order, where only the slice
re-roots can fail, left first. -/
def change_var_expr (env : Env) (target nv : Nat) : Op1 → Except Err Op1
  | .expr1 op l info =>
      (match l with
       | .expr1 .. | .expr2 .. => change_var_expr env target nv l
       | _ => .ok l) >>= fun l1 =>
      exprOperandFix env target nv l1 >>= fun l2 =>
      .ok (.expr1 op l2 info)
  | .expr2 op l r cvars info =>
      (match l with
       | .expr1 .. | .expr2 .. => change_var_expr env target nv l
       | _ => .ok l) >>= fun l1 =>
      (match r with
       | .expr1 .. | .expr2 .. => change_var_expr env target nv r
       | _ => .ok r) >>= fun r1 =>
      exprOperandFix env target nv l1 >>= fun l2 =>
      exprOperandFix env target nv r1 >>= fun r2 =>
      .ok (.expr2 op l2 r2 (if op = .Concat then replaceFirst cvars target nv else cvars) info)
  | o => .ok o

/-- The shared body of stmt_set_left (expr.cc lines 901-916) and
stmt_set_right (lines 884-899), which are textually identical up to acting
on the left respectively right statement operand: a direct operand matching
the target is replaced (the subsequent move_linked_to guard runs on the
replacement against itself because the operand reference was reassigned
first), a direct operand NOT matching the target is an internal error, a
slice operand is re-rooted with check_target set, an expression operand is
rewritten by change_var_expr, and operands of any other kind (casted,
parameter) fall through every branch unchanged. -/
def stmt_set_var (env : Env) (o : Op1) (target nv : Nat) : Except Err Op1 :=
  match opType env o with
  | VarType.Base | VarType.PortIO | VarType.ConstValue =>
      if o = .base target then
        match move_linked_check env nv nv with
        | .error e => .error e
        | .ok _ => .ok (.base nv)
      else .error .targetNotFoundErr
  | .Slice =>
      match set_var_parent env o target nv true with
      | .error e => .error e
      | .ok (some o') => .ok o'
      | .ok none => .ok o
  | .Expression => change_var_expr env target nv o
  | _ => .ok o

/-- Assignment kinds (stmt.hh line 10). -/
inductive AssignmentType where
  | Blocking
  | NonBlocking
  | Undefined
deriving Repr, DecidableEq

/-- A table variable: its construction-time attributes together with its
mutable registration sets - sources_ (assignments that write it) and sinks_
(assignments that read it), as witnessed by Var::unassign and
Var::move_src_to / move_sink_to. -/
structure VarInfo where
  sig : VarSig := {}
  sources : List Nat := []
  sinks : List Nat := []
deriving Repr, DecidableEq

/-- An assignment statement (stmt.hh lines 41-73): left (sink side), right
(source side), the owning generator (none while unparented), and the
assignment kind. -/
structure AStmt where
  left : Op1 := .base 0
  right : Op1 := .base 0
  scope : Option Nat := none
  atype : AssignmentType := .Undefined
deriving Repr, DecidableEq

/-- The mutable graph state: the variable table, the statement table, the
per-generator statement lists, and the next fresh statement identifier. -/
structure St where
  vars : Nat → VarInfo
  stmts : Nat → AStmt
  scopes : Nat → List Nat
  fresh : Nat

/-- Attribute view of the variable table. -/
def St.sigs (st : St) : Env := fun v => (st.vars v).sig

/-- Var::add_source on a table variable (base-class default of the missing
header; spec section 3 gives every signal a set of source assignments):
record the statement in the own sources_ set. -/
def Var.add_source_base (st : St) (v sid : Nat) : St :=
  { st with vars := updFn st.vars v { st.vars v with sources := (st.vars v).sources ++ [sid] } }

/-- Var::add_sink on a table variable: record the statement in the own
sinks_ set. -/
def Var.add_sink_base (st : St) (v sid : Nat) : St :=
  { st with vars := updFn st.vars v { st.vars v with sinks := (st.vars v).sinks ++ [sid] } }

/-- Var::assign(var, type) (expr.cc lines 472-483): reject a constant or
expression target, then construct the AssignStmt. Construction itself does
not register the statement anywhere (registration happens when the statement
is first parented, see Generator.add_stmt). -/
def Var.assignBase (st : St) (l r : Nat) (ty : AssignmentType) : Except Err (Nat × St) :=
  if (st.vars l).sig.vtype = .ConstValue then
    .error (.assignToConstErr (st.vars r).sig.name (st.vars l).sig.name)
  else if (st.vars l).sig.vtype = .Expression then
    .error (.assignToExprErr (st.vars r).sig.name)
  else
    .ok (st.fresh,
      { st with fresh := st.fresh + 1
                stmts := updFn st.stmts st.fresh
                  { left := .base l, right := .base r, scope := none, atype := ty } })

/-- Virtual dispatch of assign: EnumVar::assign (expr.cc lines 1201-1216)
first demands an enum-typed source of the same named enum type (an enum
constant and an enum variable both carry their enum definition name), then
defers to Var::assign. Every other variable kind uses Var::assign
directly. -/
def var_assign (st : St) (l r : Nat) (ty : AssignmentType) : Except Err (Nat × St) :=
  if (st.vars l).sig.enumName.isSome ∧ (st.vars l).sig.vtype ≠ .ConstValue then
    if (st.vars r).sig.enumName.isNone then .error .enumNonEnumErr
    else if (st.vars r).sig.enumName ≠ (st.vars l).sig.enumName then .error .enumMismatchErr
    else Var.assignBase st l r ty
  else Var.assignBase st l r ty

/-- Registration dispatch for a statement operand that is a direct variable
reference or a slice chain over one (Var::add_source walked through
VarSlice::add_source to the root). Operands of other shapes fan out through
their children; the statements this model creates (Var::assign and the
keep_connection assignments of the relocation engine) always have direct
variable operands. -/
def addSourceOp (st : St) (o : Op1) (sid : Nat) : St :=
  match collectSlices o with
  | (_, .base v) => Var.add_source_base st v sid
  | _ => st

/-- Sink-side registration dispatch, as addSourceOp. -/
def addSinkOp (st : St) (o : Op1) (sid : Nat) : St :=
  match collectSlices o with
  | (_, .base v) => Var.add_sink_base st v sid
  | _ => st

/-- Modelled from the spec: Generator::add_stmt and AssignStmt::set_parent
live in files that are not part of the sources (generator.cc, stmt.cc); spec
section 4.5 says that creating/attaching the statement registers it in the
sink sets and source sets of both operands, fanning out through wrapper
nodes to the underlying signals. Attaching sets the owning scope, appends
the statement to the scope statement list, and - on first parenting -
registers the statement with its left operand as a source and its right
operand as a sink. -/
def Generator.add_stmt (st : St) (S sid : Nat) : St :=
  let stm := st.stmts sid
  let st1 : St :=
    { st with scopes := updFn st.scopes S (st.scopes S ++ [sid])
              stmts := updFn st.stmts sid { stm with scope := some S } }
  if stm.scope = none then
    addSinkOp (addSourceOp st1 stm.left sid) stm.right sid
  else st1

/-- The rewrite loop of Var::move_src_to (expr.cc lines 923-936) over the
sources_ registrations of the relocated variable: skip statements owned by a
different generator; rewrite the left operand of the others from the old
variable to the new one and register the new variable as written by the
statement. The debug-trace branch is inert (debug off) and the
parametrization-transfer branch is inert for the modelled states, which
carry no width parameters. -/
def moveSrcLoop (A B S : Nat) : List Nat → St → Except Err St
  | [], st => .ok st
  | sid :: rest, st =>
      let stm := st.stmts sid
      if stm.scope ≠ some S then moveSrcLoop A B S rest st
      else
        match stmt_set_var st.sigs stm.left A B with
        | .error e => .error e
        | .ok l' =>
            let st1 : St := { st with stmts := updFn st.stmts sid { stm with left := l' } }
            moveSrcLoop A B S rest (Var.add_source_base st1 B sid)

/-- Var::move_src_to(var, new_var, parent, keep_connection) (expr.cc lines
918-946): reject expression and constant relocation targets; rewrite every
registered writing assignment owned by the given generator onto the new
variable; CLEAR the entire sources_ set of the old variable; and, when
keep_connection is set, create the fresh assignment var := new_var and add
it to the generator. -/
def Var.move_src_to (st : St) (A B S : Nat) (keep_connection : Bool) : Except Err St :=
  if (st.vars A).sig.vtype = .Expression ∨ (st.vars A).sig.vtype = .ConstValue then
    .error .onlyBasePortErr
  else
    match moveSrcLoop A B S (st.vars A).sources st with
    | .error e => .error e
    | .ok st1 =>
        let st2 : St := { st1 with vars := updFn st1.vars A { st1.vars A with sources := [] } }
        if keep_connection then
          match var_assign st2 A B .Undefined with
          | .error e => .error e
          | .ok (sid, st3) => .ok (Generator.add_stmt st3 S sid)
        else .ok st2

/-- The rewrite loop of Var::move_sink_to (expr.cc lines 953-966) over the
sinks_ registrations: the mirror image of moveSrcLoop acting on the right
operands. -/
def moveSinkLoop (A B S : Nat) : List Nat → St → Except Err St
  | [], st => .ok st
  | sid :: rest, st =>
      let stm := st.stmts sid
      if stm.scope ≠ some S then moveSinkLoop A B S rest st
      else
        match stmt_set_var st.sigs stm.right A B with
        | .error e => .error e
        | .ok r' =>
            let st1 : St := { st with stmts := updFn st.stmts sid { stm with right := r' } }
            moveSinkLoop A B S rest (Var.add_sink_base st1 B sid)

/-- Var::move_sink_to (expr.cc lines 948-978): as move_src_to, acting on the
sinks_ registrations and right operands; the keep_connection assignment runs
the other way (new_var := var). -/
def Var.move_sink_to (st : St) (A B S : Nat) (keep_connection : Bool) : Except Err St :=
  if (st.vars A).sig.vtype = .Expression ∨ (st.vars A).sig.vtype = .ConstValue then
    .error .onlyBasePortErr
  else
    match moveSinkLoop A B S (st.vars A).sinks st with
    | .error e => .error e
    | .ok st1 =>
        let st2 : St := { st1 with vars := updFn st1.vars A { st1.vars A with sinks := [] } }
        if keep_connection then
          match var_assign st2 B A .Undefined with
          | .error e => .error e
          | .ok (sid, st3) => .ok (Generator.add_stmt st3 S sid)
        else .ok st2

@[simp] theorem sigs_add_source_base (st : St) (v sid : Nat) :
    (Var.add_source_base st v sid).sigs = st.sigs := by
  funext j
  by_cases hj : j = v <;> simp [Var.add_source_base, St.sigs, updFn, hj]

@[simp] theorem sigs_add_sink_base (st : St) (v sid : Nat) :
    (Var.add_sink_base st v sid).sigs = st.sigs := by
  funext j
  by_cases hj : j = v <;> simp [Var.add_sink_base, St.sigs, updFn, hj]

/-- One pass of the moveSrcLoop body after a successful rewrite: install the
new left operand and register the statement with the replacement variable. -/
def srcStep (st : St) (sid B : Nat) (N : AStmt) : St :=
  Var.add_source_base { st with stmts := updFn st.stmts sid N } B sid

/-- One pass of the moveSinkLoop body after a successful rewrite. -/
def sinkStep (st : St) (sid B : Nat) (N : AStmt) : St :=
  Var.add_sink_base { st with stmts := updFn st.stmts sid N } B sid

theorem srcStep_sigs (st : St) (sid B : Nat) (N : AStmt) :
    (srcStep st sid B N).sigs = st.sigs := by
  rw [srcStep, sigs_add_source_base]
  rfl

theorem srcStep_scopes (st : St) (sid B : Nat) (N : AStmt) :
    (srcStep st sid B N).scopes = st.scopes := rfl

theorem srcStep_fresh (st : St) (sid B : Nat) (N : AStmt) :
    (srcStep st sid B N).fresh = st.fresh := rfl

theorem srcStep_stmts (st : St) (sid B : Nat) (N : AStmt) :
    (srcStep st sid B N).stmts = updFn st.stmts sid N := rfl

theorem srcStep_vars_other (st : St) (sid B : Nat) (N : AStmt) (j : Nat) (hj : j ≠ B) :
    (srcStep st sid B N).vars j = st.vars j := by
  simp [srcStep, Var.add_source_base, updFn, hj]

theorem srcStep_vars_B (st : St) (sid B : Nat) (N : AStmt) :
    ((srcStep st sid B N).vars B).sources = (st.vars B).sources ++ [sid]
    ∧ ((srcStep st sid B N).vars B).sinks = (st.vars B).sinks
    ∧ ((srcStep st sid B N).vars B).sig = (st.vars B).sig := by
  refine ⟨?_, ?_, ?_⟩ <;> simp [srcStep, Var.add_source_base, updFn]

theorem sinkStep_stmts (st : St) (sid B : Nat) (N : AStmt) :
    (sinkStep st sid B N).stmts = updFn st.stmts sid N := rfl

theorem sinkStep_vars_other (st : St) (sid B : Nat) (N : AStmt) (j : Nat) (hj : j ≠ B) :
    (sinkStep st sid B N).vars j = st.vars j := by
  simp [sinkStep, Var.add_sink_base, updFn, hj]

theorem moveSrcLoop_cons_skip (A B S sid : Nat) (rest : List Nat) (st : St)
    (hsc : (st.stmts sid).scope ≠ some S) :
    moveSrcLoop A B S (sid :: rest) st = moveSrcLoop A B S rest st := by
  simp only [moveSrcLoop]
  rw [if_pos hsc]

theorem moveSrcLoop_cons_err (A B S sid : Nat) (rest : List Nat) (st : St) (e : Err)
    (hsc : (st.stmts sid).scope = some S)
    (hset : stmt_set_var st.sigs (st.stmts sid).left A B = .error e) :
    moveSrcLoop A B S (sid :: rest) st = .error e := by
  simp only [moveSrcLoop]
  rw [if_neg (fun hh => hh hsc), hset]

theorem moveSrcLoop_cons_proc (A B S sid : Nat) (rest : List Nat) (st : St) (l' : Op1)
    (hsc : (st.stmts sid).scope = some S)
    (hset : stmt_set_var st.sigs (st.stmts sid).left A B = .ok l') :
    moveSrcLoop A B S (sid :: rest) st
      = moveSrcLoop A B S rest (srcStep st sid B { st.stmts sid with left := l' }) := by
  simp only [moveSrcLoop, srcStep]
  rw [if_neg (fun hh => hh hsc), hset]

theorem moveSinkLoop_cons_skip (A B S sid : Nat) (rest : List Nat) (st : St)
    (hsc : (st.stmts sid).scope ≠ some S) :
    moveSinkLoop A B S (sid :: rest) st = moveSinkLoop A B S rest st := by
  simp only [moveSinkLoop]
  rw [if_pos hsc]

theorem moveSinkLoop_cons_err (A B S sid : Nat) (rest : List Nat) (st : St) (e : Err)
    (hsc : (st.stmts sid).scope = some S)
    (hset : stmt_set_var st.sigs (st.stmts sid).right A B = .error e) :
    moveSinkLoop A B S (sid :: rest) st = .error e := by
  simp only [moveSinkLoop]
  rw [if_neg (fun hh => hh hsc), hset]

theorem moveSinkLoop_cons_proc (A B S sid : Nat) (rest : List Nat) (st : St) (r' : Op1)
    (hsc : (st.stmts sid).scope = some S)
    (hset : stmt_set_var st.sigs (st.stmts sid).right A B = .ok r') :
    moveSinkLoop A B S (sid :: rest) st
      = moveSinkLoop A B S rest (sinkStep st sid B { st.stmts sid with right := r' }) := by
  simp only [moveSinkLoop, sinkStep]
  rw [if_neg (fun hh => hh hsc), hset]

theorem moveSrcLoop_spec (A B S : Nat) (l : List Nat) (st st' : St)
    (h : moveSrcLoop A B S l st = .ok st') :
    st'.sigs = st.sigs
    ∧ st'.scopes = st.scopes
    ∧ st'.fresh = st.fresh
    ∧ (∀ j, j ≠ B → (st'.vars j).sources = (st.vars j).sources)
    ∧ (∀ j, (st'.vars j).sinks = (st.vars j).sinks)
    ∧ (st'.vars B).sources
        = (st.vars B).sources ++ l.filter (fun sid => decide ((st.stmts sid).scope = some S))
    ∧ (∀ sid, ¬(sid ∈ l ∧ (st.stmts sid).scope = some S) → st'.stmts sid = st.stmts sid)
    ∧ (∀ sid, (st'.stmts sid).scope = (st.stmts sid).scope
        ∧ (st'.stmts sid).right = (st.stmts sid).right
        ∧ (st'.stmts sid).atype = (st.stmts sid).atype)
    ∧ (l.Nodup → ∀ sid ∈ l, (st.stmts sid).scope = some S →
        stmt_set_var st.sigs (st.stmts sid).left A B = .ok ((st'.stmts sid).left)) := by
  induction l generalizing st with
  | nil =>
      obtain rfl : st = st' := by simpa [moveSrcLoop] using h
      refine ⟨rfl, rfl, rfl, fun j _ => rfl, fun j => rfl, by simp, fun sid _ => rfl,
        fun sid => ⟨rfl, rfl, rfl⟩, ?_⟩
      intro _ sid hsid
      simp at hsid
  | cons sid rest ih =>
      by_cases hsc : (st.stmts sid).scope = some S
      · cases hset : stmt_set_var st.sigs (st.stmts sid).left A B with
        | error e =>
            rw [moveSrcLoop_cons_err A B S sid rest st e hsc hset] at h
            exact (Except.noConfusion h)
        | ok l' =>
            rw [moveSrcLoop_cons_proc A B S sid rest st l' hsc hset] at h
            obtain ⟨ihsigs, ihscopes, ihfresh, ihsrc, ihsinks, ihB, ihstmts, ihpres, ihset⟩ :=
              ih _ h
            set N : AStmt := { st.stmts sid with left := l' } with hN
            set st2 : St := srcStep st sid B N with hst2
            have h2sigs : st2.sigs = st.sigs := srcStep_sigs st sid B N
            have h2stmts : st2.stmts = updFn st.stmts sid N := srcStep_stmts st sid B N
            have h2scope : ∀ j, (st2.stmts j).scope = (st.stmts j).scope := by
              intro j
              rw [h2stmts]
              by_cases hj : j = sid <;> simp [hj, hN]
            have h2right : ∀ j, (st2.stmts j).right = (st.stmts j).right := by
              intro j
              rw [h2stmts]
              by_cases hj : j = sid <;> simp [hj, hN]
            have h2atype : ∀ j, (st2.stmts j).atype = (st.stmts j).atype := by
              intro j
              rw [h2stmts]
              by_cases hj : j = sid <;> simp [hj, hN]
            have h2vars : ∀ j, j ≠ B → st2.vars j = st.vars j := fun j hj =>
              srcStep_vars_other st sid B N j hj
            have hfilter : rest.filter (fun x => decide ((st2.stmts x).scope = some S))
                = rest.filter (fun x => decide ((st.stmts x).scope = some S)) := by
              apply List.filter_congr
              intro x _
              rw [h2scope x]
            refine ⟨?_, ?_, ?_, ?_, ?_, ?_, ?_, ?_, ?_⟩
            · rw [ihsigs, h2sigs]
            · rw [ihscopes]; rfl
            · rw [ihfresh]; rfl
            · intro j hj
              rw [ihsrc j hj, h2vars j hj]
            · intro j
              rw [ihsinks j]
              by_cases hj : j = B
              · rw [hj]
                exact (srcStep_vars_B st sid B N).2.1
              · rw [h2vars j hj]
            · rw [ihB, hfilter, (srcStep_vars_B st sid B N).1]
              simp [hsc, List.filter_cons]
            · intro x hx
              have hx1 : ¬(x ∈ rest ∧ (st2.stmts x).scope = some S) := by
                rw [h2scope x]
                intro hh
                exact hx ⟨List.mem_cons_of_mem sid hh.1, hh.2⟩
              have hxs : x ≠ sid := by
                intro hxe
                exact hx ⟨hxe ▸ List.mem_cons_self sid rest, hxe ▸ hsc⟩
              rw [ihstmts x hx1, h2stmts, updFn_other _ _ _ _ hxs]
            · intro j
              exact ⟨(ihpres j).1.trans (h2scope j), (ihpres j).2.1.trans (h2right j),
                (ihpres j).2.2.trans (h2atype j)⟩
            · intro hnd x hx hxsc
              have hnd2 := List.nodup_cons.mp hnd
              rcases List.mem_cons.mp hx with rfl | hx2
              · have hxeq : st'.stmts x = st2.stmts x := by
                  apply ihstmts x
                  intro hh
                  exact hnd2.1 hh.1
                rw [hxeq, h2stmts, updFn_same]
                rw [hN]
                exact hset
              · have hxs : x ≠ sid := fun hxe => hnd2.1 (hxe ▸ hx2)
                have hst2x : st2.stmts x = st.stmts x := by
                  rw [h2stmts, updFn_other _ _ _ _ hxs]
                have hh := ihset hnd2.2 x hx2 (by rw [hst2x]; exact hxsc)
                rw [h2sigs, hst2x] at hh
                exact hh
      · rw [moveSrcLoop_cons_skip A B S sid rest st hsc] at h
        obtain ⟨ihsigs, ihscopes, ihfresh, ihsrc, ihsinks, ihB, ihstmts, ihpres, ihset⟩ :=
          ih st h
        refine ⟨ihsigs, ihscopes, ihfresh, ihsrc, ihsinks, ?_, ?_, ihpres, ?_⟩
        · rw [ihB]
          simp [List.filter_cons, hsc]
        · intro x hx
          apply ihstmts x
          intro hh
          exact hx ⟨List.mem_cons_of_mem sid hh.1, hh.2⟩
        · intro hnd x hx hxsc
          rcases List.mem_cons.mp hx with rfl | hx2
          · exact absurd hxsc hsc
          · exact ihset (List.nodup_cons.mp hnd).2 x hx2 hxsc

theorem moveSinkLoop_stmts (A B S : Nat) (l : List Nat) (st st' : St)
    (h : moveSinkLoop A B S l st = .ok st') :
    (∀ sid, ¬(sid ∈ l ∧ (st.stmts sid).scope = some S) → st'.stmts sid = st.stmts sid)
    ∧ (∀ j, j ≠ B → (st'.vars j).sinks = (st.vars j).sinks) := by
  induction l generalizing st with
  | nil =>
      obtain rfl : st = st' := by simpa [moveSinkLoop] using h
      exact ⟨fun sid _ => rfl, fun j _ => rfl⟩
  | cons sid rest ih =>
      by_cases hsc : (st.stmts sid).scope = some S
      · cases hset : stmt_set_var st.sigs (st.stmts sid).right A B with
        | error e =>
            rw [moveSinkLoop_cons_err A B S sid rest st e hsc hset] at h
            exact (Except.noConfusion h)
        | ok r' =>
            rw [moveSinkLoop_cons_proc A B S sid rest st r' hsc hset] at h
            obtain ⟨ihstmts, ihsinks⟩ := ih _ h
            set N : AStmt := { st.stmts sid with right := r' } with hN
            set st2 : St := sinkStep st sid B N with hst2
            have h2stmts : st2.stmts = updFn st.stmts sid N := sinkStep_stmts st sid B N
            have h2scope : ∀ j, (st2.stmts j).scope = (st.stmts j).scope := by
              intro j
              rw [h2stmts]
              by_cases hj : j = sid <;> simp [hj, hN]
            constructor
            · intro x hx
              have hx1 : ¬(x ∈ rest ∧ (st2.stmts x).scope = some S) := by
                rw [h2scope x]
                intro hh
                exact hx ⟨List.mem_cons_of_mem sid hh.1, hh.2⟩
              have hxs : x ≠ sid := by
                intro hxe
                exact hx ⟨hxe ▸ List.mem_cons_self sid rest, hxe ▸ hsc⟩
              rw [ihstmts x hx1, h2stmts, updFn_other _ _ _ _ hxs]
            · intro j hj
              rw [ihsinks j hj, sinkStep_vars_other st sid B N j hj]
      · rw [moveSinkLoop_cons_skip A B S sid rest st hsc] at h
        obtain ⟨ihstmts, ihsinks⟩ := ih st h
        refine ⟨?_, ihsinks⟩
        intro x hx
        apply ihstmts x
        intro hh
        exact hx ⟨List.mem_cons_of_mem sid hh.1, hh.2⟩

theorem writtenVar_eq_some (o : Op1) (v : Nat) :
    writtenVar o = some v ↔ (collectSlices o).2 = .base v := by
  rcases hco : collectSlices o with ⟨bs, root⟩
  cases root <;> simp [writtenVar, hco]

theorem foldIndex_spec (env : Env) (bs : List (Nat × Nat)) :
    ∀ x y : Op1, opSig env x = opSig env y →
    (∃ e, bs.foldlM (fun acc hl => Var.index env acc hl.1 hl.2) x = .error e
        ∧ bs.foldlM (fun acc hl => Var.index env acc hl.1 hl.2) y = .error e)
    ∨ (∃ x' y', bs.foldlM (fun acc hl => Var.index env acc hl.1 hl.2) x = .ok x'
        ∧ bs.foldlM (fun acc hl => Var.index env acc hl.1 hl.2) y = .ok y'
        ∧ opSig env x' = opSig env y'
        ∧ (collectSlices x').2 = (collectSlices x).2
        ∧ (collectSlices y').2 = (collectSlices y).2) := by
  induction bs with
  | nil =>
      intro x y hxy
      right
      exact ⟨x, y, rfl, rfl, hxy, rfl, rfl⟩
  | cons hl bs ih =>
      intro x y hxy
      cases hif : indexFields (opSig env x) hl.1 hl.2 with
      | error e =>
          left
          have hx : Var.index env x hl.1 hl.2 = .error e := by
            rw [Var.index, hif]; rfl
          have hy : Var.index env y hl.1 hl.2 = .error e := by
            rw [Var.index, ← hxy, hif]; rfl
          refine ⟨e, ?_, ?_⟩
          · simp only [List.foldlM_cons, hx]; rfl
          · simp only [List.foldlM_cons, hy]; rfl
      | ok f =>
          have hx : Var.index env x hl.1 hl.2 = .ok (.slice x hl.1 hl.2 f.1 f.2.1 f.2.2) := by
            rw [Var.index, hif]; rfl
          have hy : Var.index env y hl.1 hl.2 = .ok (.slice y hl.1 hl.2 f.1 f.2.1 f.2.2) := by
            rw [Var.index, ← hxy, hif]; rfl
          have hsig2 : opSig env (.slice x hl.1 hl.2 f.1 f.2.1 f.2.2)
              = opSig env (.slice y hl.1 hl.2 f.1 f.2.1 f.2.2) := rfl
          rcases ih _ _ hsig2 with ⟨e, he1, he2⟩ | ⟨x', y', h1, h2, h3, h4, h5⟩
          · left
            refine ⟨e, ?_, ?_⟩
            · simp only [List.foldlM_cons, hx]; exact he1
            · simp only [List.foldlM_cons, hy]; exact he2
          · right
            refine ⟨x', y', ?_, ?_, h3, ?_, ?_⟩
            · simp only [List.foldlM_cons, hx]; exact h1
            · simp only [List.foldlM_cons, hy]; exact h2
            · rw [h4]; rfl
            · rw [h5]; rfl

/-- When the left operand of a relocated statement is a direct reference to
the target or a well-built slice chain rooted at it, a successful
stmt_set_left rewrite re-roots it onto the replacement, and - when the
replacement carries the same attributes as the target - the rewritten
operand keeps the attributes (hence total width and signedness) of the
original. -/
theorem stmt_set_var_preserves (env : Env) (o o' : Op1) (A B : Nat)
    (hA : (env A).vtype = .Base)
    (hsig : opSig env (.base A) = opSig env (.base B))
    (hw : writtenVar o = some A)
    (hwb : wellBuilt env o)
    (h : stmt_set_var env o A B = .ok o') :
    writtenVar o' = some B ∧ opInfo env o' = opInfo env o := by
  cases o with
  | base v =>
      have hv : v = A := by simpa [writtenVar, collectSlices] using hw
      subst hv
      have hty : opType env (.base v) = .Base := by simp [opType, hA]
      rw [stmt_set_var, hty] at h
      simp only [if_pos rfl] at h
      have hchk : move_linked_check env B B = .ok () := by
        simp [move_linked_check]
      rw [hchk] at h
      obtain rfl : Op1.base B = o' := by simpa using h
      refine ⟨by simp [writtenVar, collectSlices], ?_⟩
      exact (congrArg OpSig.info hsig).symm
  | slice p hi lo i vh vl =>
      have hroot : (collectSlices (Op1.slice p hi lo i vh vl)).2 = .base A :=
        (writtenVar_eq_some _ _).mp hw
      rw [stmt_set_var] at h
      simp only [opType] at h
      rw [set_var_parent] at h
      simp only [hroot] at h
      rw [if_neg (by simp)] at h
      rw [if_neg (by simp [collectSlices])] at h
      rw [wellBuilt, hroot] at hwb
      rcases foldIndex_spec env (collectSlices (Op1.slice p hi lo i vh vl)).1.reverse
          (.base A) (.base B) hsig with ⟨e, he1, he2⟩ | ⟨x', y', h1, h2, h3, h4, h5⟩
      · rw [he1] at hwb
        exact (Except.noConfusion hwb)
      · rw [h1] at hwb
        obtain rfl : x' = Op1.slice p hi lo i vh vl := by simpa using hwb
        rw [h2] at h
        obtain rfl : y' = o' := by simpa using h
        refine ⟨(writtenVar_eq_some _ _).mpr (by simpa [collectSlices] using h5), ?_⟩
        exact (congrArg OpSig.info h3).symm
  | expr1 op l i => simp [writtenVar, collectSlices] at hw
  | expr2 op l r cv i => simp [writtenVar, collectSlices] at hw

theorem add_source_base_vars_other (st : St) (v sid j : Nat) (hj : j ≠ v) :
    (Var.add_source_base st v sid).vars j = st.vars j := by
  simp [Var.add_source_base, updFn, hj]

theorem add_source_base_vars_self (st : St) (v sid : Nat) :
    (Var.add_source_base st v sid).vars v
      = { st.vars v with sources := (st.vars v).sources ++ [sid] } := by
  simp [Var.add_source_base, updFn]

theorem add_sink_base_vars_other (st : St) (v sid j : Nat) (hj : j ≠ v) :
    (Var.add_sink_base st v sid).vars j = st.vars j := by
  simp [Var.add_sink_base, updFn, hj]

theorem add_sink_base_vars_self (st : St) (v sid : Nat) :
    (Var.add_sink_base st v sid).vars v
      = { st.vars v with sinks := (st.vars v).sinks ++ [sid] } := by
  simp [Var.add_sink_base, updFn]

theorem move_src_to_eq (st : St) (A B S : Nat) (kc : Bool) (st1 : St)
    (hty : ¬((st.vars A).sig.vtype = .Expression ∨ (st.vars A).sig.vtype = .ConstValue))
    (hloop : moveSrcLoop A B S (st.vars A).sources st = .ok st1) :
    Var.move_src_to st A B S kc
      = (if kc then
           match var_assign { st1 with vars := updFn st1.vars A { st1.vars A with sources := [] } }
               A B .Undefined with
           | .error e => .error e
           | .ok (sid, st3) => .ok (Generator.add_stmt st3 S sid)
         else .ok { st1 with vars := updFn st1.vars A { st1.vars A with sources := [] } }) := by
  rw [Var.move_src_to, if_neg hty, hloop]

theorem move_sink_to_eq (st : St) (A B S : Nat) (kc : Bool) (st1 : St)
    (hty : ¬((st.vars A).sig.vtype = .Expression ∨ (st.vars A).sig.vtype = .ConstValue))
    (hloop : moveSinkLoop A B S (st.vars A).sinks st = .ok st1) :
    Var.move_sink_to st A B S kc
      = (if kc then
           match var_assign { st1 with vars := updFn st1.vars A { st1.vars A with sinks := [] } }
               B A .Undefined with
           | .error e => .error e
           | .ok (sid, st3) => .ok (Generator.add_stmt st3 S sid)
         else .ok { st1 with vars := updFn st1.vars A { st1.vars A with sinks := [] } }) := by
  rw [Var.move_sink_to, if_neg hty, hloop]

theorem var_assign_ok (st : St) (l r : Nat) (ty : AssignmentType)
    (he : (st.vars l).sig.enumName = none)
    (hb : (st.vars l).sig.vtype = .Base) :
    var_assign st l r ty = .ok (st.fresh,
      { st with fresh := st.fresh + 1
                stmts := updFn st.stmts st.fresh
                  { left := .base l, right := .base r, scope := none, atype := ty } }) := by
  have h1 : ¬((st.vars l).sig.enumName.isSome ∧ (st.vars l).sig.vtype ≠ .ConstValue) := by
    simp [he]
  have h2 : ¬((st.vars l).sig.vtype = .ConstValue) := by simp [hb]
  have h3 : ¬((st.vars l).sig.vtype = .Expression) := by simp [hb]
  rw [var_assign, if_neg h1, Var.assignBase, if_neg h2, if_neg h3]

theorem add_stmt_assign (st : St) (S sid lA rB : Nat) (ty : AssignmentType)
    (hstmt : st.stmts sid = { left := .base lA, right := .base rB, scope := none, atype := ty }) :
    Generator.add_stmt st S sid
      = Var.add_sink_base
          (Var.add_source_base
            { st with scopes := updFn st.scopes S (st.scopes S ++ [sid])
                      stmts := updFn st.stmts sid
                        { left := .base lA, right := .base rB, scope := some S, atype := ty } }
            lA sid)
          rB sid := by
  rw [Generator.add_stmt, hstmt]
  simp only [addSourceOp, addSinkOp, collectSlices]
  rw [if_pos trivial]

/-- Claim C10: after Var::move_src_to (respectively move_sink_to) with a
given scope the ENTIRE sources_ (sinks_) registration set of the relocated
variable is emptied, including the registrations of assignments owned by
other scopes: those statements are skipped by the rewrite and still carry
their old operands, but the variable no longer tracks them. (Stated for
keep_connection off; with it on, the only registration left afterwards is
the freshly created keep-connection assignment.) -/
theorem C10_move_clears_all (A B S : Nat) (st src' snk' : St) :
    (Var.move_src_to st A B S false = .ok src' →
      (src'.vars A).sources = []
      ∧ (∀ sid ∈ (st.vars A).sources, (st.stmts sid).scope ≠ some S →
          src'.stmts sid = st.stmts sid ∧ sid ∉ (src'.vars A).sources))
    ∧ (Var.move_sink_to st A B S false = .ok snk' →
      (snk'.vars A).sinks = []
      ∧ (∀ sid ∈ (st.vars A).sinks, (st.stmts sid).scope ≠ some S →
          snk'.stmts sid = st.stmts sid ∧ sid ∉ (snk'.vars A).sinks)) := by
  constructor
  · intro h
    by_cases hty : (st.vars A).sig.vtype = .Expression ∨ (st.vars A).sig.vtype = .ConstValue
    · rw [Var.move_src_to, if_pos hty] at h
      exact (Except.noConfusion h)
    · cases hloop : moveSrcLoop A B S (st.vars A).sources st with
      | error e =>
          rw [Var.move_src_to, if_neg hty, hloop] at h
          exact (Except.noConfusion h)
      | ok st1 =>
          rw [move_src_to_eq st A B S false st1 hty hloop] at h
          rw [if_neg (by simp)] at h
          obtain rfl : { st1 with vars := updFn st1.vars A { st1.vars A with sources := [] } }
              = src' := by
            simpa using h
          obtain ⟨_, _, _, _, _, _, spstmts, _, _⟩ := moveSrcLoop_spec A B S _ st st1 hloop
          constructor
          · simp
          · intro sid hmem hscope
            refine ⟨?_, by simp⟩
            exact spstmts sid (fun hh => hscope hh.2)
  · intro h
    by_cases hty : (st.vars A).sig.vtype = .Expression ∨ (st.vars A).sig.vtype = .ConstValue
    · rw [Var.move_sink_to, if_pos hty] at h
      exact (Except.noConfusion h)
    · cases hloop : moveSinkLoop A B S (st.vars A).sinks st with
      | error e =>
          rw [Var.move_sink_to, if_neg hty, hloop] at h
          exact (Except.noConfusion h)
      | ok st1 =>
          rw [move_sink_to_eq st A B S false st1 hty hloop] at h
          rw [if_neg (by simp)] at h
          obtain rfl : { st1 with vars := updFn st1.vars A { st1.vars A with sinks := [] } }
              = snk' := by
            simpa using h
          obtain ⟨spstmts, _⟩ := moveSinkLoop_stmts A B S _ st st1 hloop
          constructor
          · simp
          · intro sid hmem hscope
            refine ⟨?_, by simp⟩
            exact spstmts sid (fun hh => hscope hh.2)

/-- Claim C1 (amended): for a base signal A, a replacement table signal B
carrying the same element width, dimension list, signedness and array
marking as A, and a scope S, a successful Var::move_src_to rewrites every
registered writing assignment owned by S whose written operand is A (a
direct reference or a well-built nested-slice chain rooted at A) so that it
writes B instead, with the operand attributes - hence total bit width and
signedness - unchanged; afterwards A retains no registration except, with
keep_connection on, the one freshly created assignment A := B, which is
added to the statement list of S; and B is registered as written by exactly
the rewritten statements, appended to whatever registrations it already had.
The attribute proviso on B is needed: the code itself checks nothing here
(slice chains are re-rooted with the attributes of B, and the direct-operand
guard of move_linked_to runs against the already-replaced operand). -/
theorem C1_move_src_to_amended (st st' : St) (A B S : Nat) (kc : Bool)
    (hAB : A ≠ B)
    (hA : (st.vars A).sig.vtype = .Base)
    (hAe : (st.vars A).sig.enumName = none)
    (hsig : opSig st.sigs (.base A) = opSig st.sigs (.base B))
    (hnd : (st.vars A).sources.Nodup)
    (hfresh : st.fresh ∉ (st.vars A).sources)
    (h : Var.move_src_to st A B S kc = .ok st') :
    (∀ sid ∈ (st.vars A).sources, (st.stmts sid).scope = some S →
        writtenVar (st.stmts sid).left = some A →
        wellBuilt st.sigs (st.stmts sid).left →
        writtenVar (st'.stmts sid).left = some B
        ∧ opInfo st.sigs (st'.stmts sid).left = opInfo st.sigs (st.stmts sid).left
        ∧ (st'.stmts sid).right = (st.stmts sid).right
        ∧ (st'.stmts sid).scope = some S)
    ∧ (st'.vars A).sources = (if kc then [st.fresh] else [])
    ∧ (st'.vars B).sources
        = (st.vars B).sources
          ++ (st.vars A).sources.filter (fun sid => decide ((st.stmts sid).scope = some S))
    ∧ (kc = true →
        st'.stmts st.fresh
          = { left := .base A, right := .base B, scope := some S, atype := .Undefined }
        ∧ st'.scopes S = st.scopes S ++ [st.fresh]
        ∧ (st'.vars B).sinks = (st.vars B).sinks ++ [st.fresh]) := by
  have hty : ¬((st.vars A).sig.vtype = .Expression ∨ (st.vars A).sig.vtype = .ConstValue) := by
    rw [hA]
    rintro (hh | hh) <;> exact VarType.noConfusion hh
  cases hloop : moveSrcLoop A B S (st.vars A).sources st with
  | error e =>
      rw [Var.move_src_to, if_neg hty, hloop] at h
      exact (Except.noConfusion h)
  | ok st1 =>
      obtain ⟨spsigs, spscopes, spfresh, spsrc, spsinks, spB, spstmts, sppres, spset⟩ :=
        moveSrcLoop_spec A B S _ st st1 hloop
      have hBA : B ≠ A := fun hh => hAB hh.symm
      rw [move_src_to_eq st A B S kc st1 hty hloop] at h
      have hmain : ∀ st2 : St, st2.stmts = st1.stmts →
          ∀ sid ∈ (st.vars A).sources, (st.stmts sid).scope = some S →
          writtenVar (st.stmts sid).left = some A →
          wellBuilt st.sigs (st.stmts sid).left →
          writtenVar (st2.stmts sid).left = some B
          ∧ opInfo st.sigs (st2.stmts sid).left = opInfo st.sigs (st.stmts sid).left
          ∧ (st2.stmts sid).right = (st.stmts sid).right
          ∧ (st2.stmts sid).scope = some S := by
        intro st2 hst2 sid hmem hscope hwv hwb
        have hset := spset hnd sid hmem hscope
        have hA' : (st.sigs A).vtype = .Base := hA
        have hpres := stmt_set_var_preserves st.sigs (st.stmts sid).left ((st1.stmts sid).left)
          A B hA' hsig hwv hwb hset
        rw [hst2]
        exact ⟨hpres.1, hpres.2, (sppres sid).2.1, ((sppres sid).1).trans hscope⟩
      cases kc with
      | false =>
          rw [if_neg (by simp)] at h
          obtain rfl : { st1 with vars := updFn st1.vars A { st1.vars A with sources := [] } }
              = st' := by
            simpa using h
          refine ⟨hmain _ rfl, by simp, ?_, by intro hh; exact absurd hh (by simp)⟩
          have : (updFn st1.vars A { st1.vars A with sources := [] } B) = st1.vars B :=
            updFn_other _ _ _ _ hBA
          simpa [this] using spB
      | true =>
          rw [if_pos rfl] at h
          set st2 : St := { st1 with vars := updFn st1.vars A { st1.vars A with sources := [] } }
            with hst2
          have h2sig : ∀ j, (st2.vars j).sig = (st.vars j).sig := by
            intro j
            by_cases hj : j = A
            · subst hj
              have : (st2.vars j) = { st1.vars j with sources := [] } := by
                rw [hst2]; exact updFn_same _ _ _
              rw [this]
              exact congrFun spsigs j
            · have : st2.vars j = st1.vars j := by
                rw [hst2]; exact updFn_other _ _ _ _ hj
              rw [this]
              exact congrFun spsigs j
          have hva := var_assign_ok st2 A B .Undefined ((h2sig A).symm ▸ hAe)
            ((h2sig A).symm ▸ hA)
          rw [hva] at h
          obtain rfl : Generator.add_stmt
              { st2 with fresh := st2.fresh + 1
                         stmts := updFn st2.stmts st2.fresh
                           { left := .base A, right := .base B, scope := none,
                             atype := .Undefined } } S st2.fresh = st' := by
            simpa using h
          set st3 : St := { st2 with fresh := st2.fresh + 1
                                     stmts := updFn st2.stmts st2.fresh
                                       { left := .base A, right := .base B, scope := none,
                                         atype := .Undefined } } with hst3
          have hfr : st2.fresh = st.fresh := spfresh
          have hstmt3 : st3.stmts st2.fresh
              = { left := .base A, right := .base B, scope := none, atype := .Undefined } := by
            rw [hst3]
            exact updFn_same _ _ _
          rw [add_stmt_assign st3 S st2.fresh A B .Undefined hstmt3]
          set st4 : St := { st3 with
            scopes := updFn st3.scopes S (st3.scopes S ++ [st2.fresh])
            stmts := updFn st3.stmts st2.fresh
              { left := .base A, right := .base B, scope := some S, atype := .Undefined } }
            with hst4
          have hres : Var.add_sink_base (Var.add_source_base
              { st3 with scopes := updFn st3.scopes S (st3.scopes S ++ [st2.fresh])
                         stmts := updFn st3.stmts st2.fresh
                           { left := .base A, right := .base B, scope := some S,
                             atype := .Undefined } } A st2.fresh) B st2.fresh
              = Var.add_sink_base (Var.add_source_base st4 A st2.fresh) B st2.fresh := by
            rw [hst4]
          rw [hres]
          have hstmts5 : ∀ j, (Var.add_sink_base (Var.add_source_base st4 A st2.fresh)
              B st2.fresh).stmts j = st4.stmts j := fun j => rfl
          have hstmts4 : ∀ j, j ≠ st2.fresh → st4.stmts j = st1.stmts j := by
            intro j hj
            rw [hst4]
            have h1 : updFn st3.stmts st2.fresh
                { left := .base A, right := .base B, scope := some S, atype := .Undefined } j
                = st3.stmts j := updFn_other _ _ _ _ hj
            have h2 : st3.stmts j = st2.stmts j := by
              rw [hst3]
              exact updFn_other _ _ _ _ hj
            exact h1.trans (h2.trans rfl)
          refine ⟨?_, ?_, ?_, ?_⟩
          · intro sid hmem hscope hwv hwb
            have hjne : sid ≠ st2.fresh := by
              rw [hfr]
              intro hh
              exact hfresh (hh ▸ hmem)
            have hcomb := hmain ({ st1 with vars := st1.vars }) (by rfl) sid hmem hscope hwv hwb
            have heq : (Var.add_sink_base (Var.add_source_base st4 A st2.fresh)
                B st2.fresh).stmts sid = st1.stmts sid := by
              rw [hstmts5 sid, hstmts4 sid hjne]
            rw [heq]
            simpa using hcomb
          · have hv1 : (Var.add_sink_base (Var.add_source_base st4 A st2.fresh)
                B st2.fresh).vars A = (Var.add_source_base st4 A st2.fresh).vars A :=
              add_sink_base_vars_other _ _ _ _ hAB
            rw [hv1, add_source_base_vars_self]
            have hv2 : (st4.vars A).sources = [] := by
              rw [hst4]
              show (st2.vars A).sources = []
              rw [hst2]
              show ((updFn st1.vars A { st1.vars A with sources := [] }) A).sources = []
              rw [updFn_same]
            simp [hv2, hfr, spfresh]
          · have hv1 : (Var.add_sink_base (Var.add_source_base st4 A st2.fresh)
                B st2.fresh).vars B
                = { (Var.add_source_base st4 A st2.fresh).vars B with
                    sinks := ((Var.add_source_base st4 A st2.fresh).vars B).sinks
                      ++ [st2.fresh] } := add_sink_base_vars_self _ _ _
            have hv2 : (Var.add_source_base st4 A st2.fresh).vars B = st4.vars B :=
              add_source_base_vars_other _ _ _ _ hBA
            have hv3 : st4.vars B = st1.vars B := by
              rw [hst4]
              show st2.vars B = st1.vars B
              rw [hst2]
              exact updFn_other _ _ _ _ hBA
            rw [hv1, hv2, hv3]
            exact spB
          · intro _
            refine ⟨?_, ?_, ?_⟩
            · have heq : (Var.add_sink_base (Var.add_source_base st4 A st2.fresh)
                  B st2.fresh).stmts st.fresh = st4.stmts st.fresh := hstmts5 _
              rw [heq, hst4, ← hfr]
              show (updFn st3.stmts st2.fresh
                { left := .base A, right := .base B, scope := some S,
                  atype := .Undefined }) st2.fresh = _
              rw [updFn_same]
            · have hsc1 : (Var.add_sink_base (Var.add_source_base st4 A st2.fresh)
                  B st2.fresh).scopes = st4.scopes := rfl
              rw [hsc1, hst4]
              show (updFn st3.scopes S (st3.scopes S ++ [st2.fresh])) S = _
              rw [updFn_same]
              have hsc2 : st3.scopes = st.scopes := by
                rw [hst3]
                show st2.scopes = st.scopes
                rw [hst2]
                exact spscopes
              rw [hsc2, hfr]
            · have hv1 : (Var.add_sink_base (Var.add_source_base st4 A st2.fresh)
                  B st2.fresh).vars B
                  = { (Var.add_source_base st4 A st2.fresh).vars B with
                      sinks := ((Var.add_source_base st4 A st2.fresh).vars B).sinks
                        ++ [st2.fresh] } := add_sink_base_vars_self _ _ _
              have hv2 : (Var.add_source_base st4 A st2.fresh).vars B = st4.vars B :=
                add_source_base_vars_other _ _ _ _ hBA
              have hv3 : st4.vars B = st1.vars B := by
                rw [hst4]
                show st2.vars B = st1.vars B
                rw [hst2]
                exact updFn_other _ _ _ _ hBA
              rw [hv1, hv2, hv3, spsinks B, hfr]

/-- State for the claim C1 counterexample: variable 0 is an unsigned width-8
base signal A written directly by statement 0 in scope 5; variable 1 is a
SIGNED width-4 signal B; variable 2 is the statement source operand. -/
def c1st : St :=
  { vars := fun j =>
      if j = 0 then { sig := { name := "A", var_width := 8 }, sources := [0] }
      else if j = 1 then { sig := { name := "B", var_width := 4, is_signed := true } }
      else { sig := { name := "C", var_width := 8 } }
    stmts := fun _ => { left := .base 0, right := .base 2, scope := some 5 }
    scopes := fun _ => []
    fresh := 1 }

/-- Claim C1 counterexample: relocating the writing assignments of the
width-8 unsigned signal A onto the width-4 signed signal B SUCCEEDS and
rewrites the statement to write B - the left operand of the rewritten
statement now has width 4 and is signed, where it had width 8 unsigned, so
the claim that total bit width and signedness of the rewritten statements
are unchanged is false: the guard of move_linked_to runs against the operand
reference after it has already been reassigned, comparing the replacement
with itself, and therefore never fires. -/
theorem C1_counterexample :
    (Var.move_src_to c1st 0 1 5 false).toOption.map
        (fun s => ((s.stmts 0).left, opInfo s.sigs ((s.stmts 0).left)))
      = some (.base 1, ⟨4, [1], true⟩)
    ∧ opInfo c1st.sigs ((c1st.stmts 0).left) = ⟨8, [1], false⟩
    ∧ ¬((4 : Nat) = 8 ∧ (true : Bool) = false) := by
  exact ⟨rfl, rfl, by decide⟩

/-- State for the claim C1 witness: variable 0 is A (unsigned, width 8),
written through the slice A[3:0] by statement 0 in scope 5; variable 1 is B
with the same attributes as A; variable 2 is the width-4 source operand. -/
def c1wst : St :=
  { vars := fun j =>
      if j = 0 then { sig := { name := "A", var_width := 8 }, sources := [0] }
      else if j = 1 then { sig := { name := "B", var_width := 8 } }
      else { sig := { name := "C", var_width := 4 } }
    stmts := fun _ =>
      { left := .slice (.base 0) 3 0 ⟨4, [1], false⟩ 3 0, right := .base 2, scope := some 5 }
    scopes := fun _ => []
    fresh := 1 }

/-- Result of running move_src_to with keep_connection on the witness
state. -/
def c1wres : St :=
  match Var.move_src_to c1wst 0 1 5 true with
  | .ok s => s
  | .error _ => c1wst

/-- Claim C1 witness: on the concrete state the slice-written statement is
re-rooted onto B with width and sign intact, A ends up registered only for
the fresh keep-connection assignment A := B (statement 1), B is registered
for the moved statement, and the new assignment lands in the statement list
of scope 5. -/
theorem C1_move_src_to_witness :
    writtenVar ((c1wres.stmts 0).left) = some 1
    ∧ opInfo c1wst.sigs ((c1wres.stmts 0).left) = opInfo c1wst.sigs ((c1wst.stmts 0).left)
    ∧ (c1wres.vars 0).sources = [1]
    ∧ (c1wres.vars 1).sources = [0]
    ∧ c1wres.stmts 1 = { left := .base 0, right := .base 1, scope := some 5, atype := .Undefined }
    ∧ c1wres.scopes 5 = [1]
    ∧ (c1wres.vars 1).sinks = [1] := by
  have hrun : Var.move_src_to c1wst 0 1 5 true = .ok c1wres := rfl
  have hmain := C1_move_src_to_amended c1wst c1wres 0 1 5 true (by decide) rfl rfl rfl
    (by decide) (by decide) hrun
  have hr := hmain.1 0 (by simp [c1wst]) rfl rfl rfl
  exact ⟨hr.1, hr.2.1, rfl, rfl, rfl, rfl, rfl⟩

/-- State for the claim C10 witness: A (variable 0) is written by statements
0 (scope 5) and 1 (scope 7) and read by statements 2 (scope 5) and 3
(scope 7). -/
def c10st : St :=
  { vars := fun j =>
      if j = 0 then { sig := { name := "A", var_width := 8 }, sources := [0, 1], sinks := [2, 3] }
      else if j = 1 then { sig := { name := "B", var_width := 8 } }
      else { sig := { name := "C", var_width := 8 } }
    stmts := fun j =>
      if j = 0 then { left := .base 0, right := .base 2, scope := some 5 }
      else if j = 1 then { left := .base 0, right := .base 2, scope := some 7 }
      else if j = 2 then { left := .base 2, right := .base 0, scope := some 5 }
      else { left := .base 2, right := .base 0, scope := some 7 }
    scopes := fun _ => []
    fresh := 4 }

/-- Result of move_src_to on the C10 witness state. -/
def c10src : St :=
  match Var.move_src_to c10st 0 1 5 false with
  | .ok s => s
  | .error _ => c10st

/-- Result of move_sink_to on the C10 witness state. -/
def c10snk : St :=
  match Var.move_sink_to c10st 0 1 5 false with
  | .ok s => s
  | .error _ => c10st

/-- Claim C10 witness: after relocating within scope 5, the registration
sets of A are completely empty although statements 1 and 3 (owned by scope
7) were skipped and still reference A as an operand, unchanged. -/
theorem C10_move_witness :
    (c10src.vars 0).sources = []
    ∧ c10src.stmts 1 = c10st.stmts 1
    ∧ (c10snk.vars 0).sinks = []
    ∧ c10snk.stmts 3 = c10st.stmts 3 := by
  have h1 := (C10_move_clears_all 0 1 5 c10st c10src c10snk).1 rfl
  have h2 := (C10_move_clears_all 0 1 5 c10st c10src c10snk).2 rfl
  exact ⟨h1.1, (h1.2 1 (by simp [c10st]) (by decide)).1, h2.1,
    (h2.2 3 (by simp [c10st]) (by decide)).1⟩

/- ------------------------------------------------------------------ -/
/- Claim C4: assignment checks and symmetric registration.              -/
/- ------------------------------------------------------------------ -/

theorem add_stmt_assign_mem_sources (st : St) (S sid lA rB : Nat) (ty : AssignmentType)
    (hstmt : st.stmts sid = { left := .base lA, right := .base rB, scope := none, atype := ty }) :
    sid ∈ ((Generator.add_stmt st S sid).vars lA).sources := by
  rw [add_stmt_assign st S sid lA rB ty hstmt]
  by_cases h : rB = lA
  · subst h
    rw [add_sink_base_vars_self, add_source_base_vars_self]
    simp
  · rw [add_sink_base_vars_other _ _ _ _ (fun hh => h hh.symm), add_source_base_vars_self]
    simp

theorem add_stmt_assign_mem_sinks (st : St) (S sid lA rB : Nat) (ty : AssignmentType)
    (hstmt : st.stmts sid = { left := .base lA, right := .base rB, scope := none, atype := ty }) :
    sid ∈ ((Generator.add_stmt st S sid).vars rB).sinks := by
  rw [add_stmt_assign st S sid lA rB ty hstmt]
  rw [add_sink_base_vars_self]
  simp

theorem add_stmt_assign_stmt (st : St) (S sid lA rB : Nat) (ty : AssignmentType)
    (hstmt : st.stmts sid = { left := .base lA, right := .base rB, scope := none, atype := ty }) :
    (Generator.add_stmt st S sid).stmts sid
      = { left := .base lA, right := .base rB, scope := some S, atype := ty } := by
  rw [add_stmt_assign st S sid lA rB ty hstmt]
  exact updFn_same st.stmts sid _

theorem add_stmt_assign_scopes (st : St) (S sid lA rB : Nat) (ty : AssignmentType)
    (hstmt : st.stmts sid = { left := .base lA, right := .base rB, scope := none, atype := ty }) :
    sid ∈ (Generator.add_stmt st S sid).scopes S := by
  rw [add_stmt_assign st S sid lA rB ty hstmt]
  show sid ∈ updFn st.scopes S (st.scopes S ++ [sid]) S
  rw [updFn_same]
  exact List.mem_append_right _ (List.mem_singleton_self sid)

/-- Claim C4: assigning to a constant fails, assigning to an expression node
fails, assigning to an enum variable from a non-enum source or a source of a
different named enum type fails; and for a non-constant non-expression
target whose enum type (if any) the source matches, the assignment succeeds
and - once attached to a scope (registration happens at first parenting,
modelled from the spec since stmt.cc is not among the sources) - the
statement is registered symmetrically: in the sources set of the written
operand and the sinks set of the read operand. -/
theorem C4_assign_checks (st : St) (t s : Nat) (ty : AssignmentType) (S : Nat) :
    ((st.vars t).sig.vtype = .ConstValue →
        var_assign st t s ty
          = .error (.assignToConstErr (st.vars s).sig.name (st.vars t).sig.name))
    ∧ ((st.vars t).sig.vtype = .Expression → (st.vars t).sig.enumName = none →
        var_assign st t s ty = .error (.assignToExprErr (st.vars s).sig.name))
    ∧ ((st.vars t).sig.enumName.isSome = true → (st.vars t).sig.vtype ≠ .ConstValue →
        ((st.vars s).sig.enumName = none → var_assign st t s ty = .error .enumNonEnumErr)
        ∧ ((st.vars s).sig.enumName.isSome = true →
            (st.vars s).sig.enumName ≠ (st.vars t).sig.enumName →
            var_assign st t s ty = .error .enumMismatchErr))
    ∧ ((st.vars t).sig.vtype ≠ .ConstValue → (st.vars t).sig.vtype ≠ .Expression →
        ((st.vars t).sig.enumName.isSome = true →
          (st.vars s).sig.enumName = (st.vars t).sig.enumName) →
        ∃ st2 : St, var_assign st t s ty = .ok (st.fresh, st2)
          ∧ st2.stmts st.fresh = { left := .base t, right := .base s, scope := none, atype := ty }
          ∧ st.fresh ∈ ((Generator.add_stmt st2 S st.fresh).vars t).sources
          ∧ st.fresh ∈ ((Generator.add_stmt st2 S st.fresh).vars s).sinks
          ∧ (Generator.add_stmt st2 S st.fresh).stmts st.fresh
              = { left := .base t, right := .base s, scope := some S, atype := ty }
          ∧ st.fresh ∈ (Generator.add_stmt st2 S st.fresh).scopes S) := by
  refine ⟨?_, ?_, ?_, ?_⟩
  · intro h1
    simp [var_assign, Var.assignBase, h1]
  · intro h1 h2
    simp [var_assign, Var.assignBase, h1, h2]
  · intro h1 h2
    constructor
    · intro hs
      simp [var_assign, h1, h2, hs, Option.isNone_iff_eq_none]
    · intro hs1 hs2
      have hs3 : (st.vars s).sig.enumName.isNone = false := by
        cases hh : (st.vars s).sig.enumName with
        | none => rw [hh] at hs1; exact Bool.noConfusion hs1
        | some E => rfl
      simp [var_assign, h1, h2, hs3, hs2]
  · intro h1 h2 h3
    have hbase : Var.assignBase st t s ty = .ok (st.fresh,
        { st with fresh := st.fresh + 1
                  stmts := updFn st.stmts st.fresh
                    { left := .base t, right := .base s, scope := none, atype := ty } }) := by
      rw [Var.assignBase, if_neg h1, if_neg h2]
    have hva : var_assign st t s ty = .ok (st.fresh,
        { st with fresh := st.fresh + 1
                  stmts := updFn st.stmts st.fresh
                    { left := .base t, right := .base s, scope := none, atype := ty } }) := by
      rw [var_assign]
      by_cases he : (st.vars t).sig.enumName.isSome = true ∧ (st.vars t).sig.vtype ≠ .ConstValue
      · rw [if_pos he]
        have hse := h3 he.1
        obtain ⟨E, hE⟩ := Option.isSome_iff_exists.mp he.1
        have hsome : (st.vars s).sig.enumName.isNone = false := by
          rw [Option.isNone_eq_false_iff, Option.isSome_iff_exists]
          exact ⟨E, by rw [hse, hE]⟩
        rw [if_neg (by simp [hsome]), if_neg (by simp [hse])]
        exact hbase
      · rw [if_neg he]
        exact hbase
    set st2 : St := { st with fresh := st.fresh + 1
                              stmts := updFn st.stmts st.fresh
                                { left := .base t, right := .base s, scope := none, atype := ty } }
      with hst2
    have hstmt2 : st2.stmts st.fresh
        = { left := .base t, right := .base s, scope := none, atype := ty } := by
      rw [hst2]
      exact updFn_same _ _ _
    refine ⟨st2, hva, hstmt2,
      add_stmt_assign_mem_sources st2 S st.fresh t s ty hstmt2,
      add_stmt_assign_mem_sinks st2 S st.fresh t s ty hstmt2,
      add_stmt_assign_stmt st2 S st.fresh t s ty hstmt2,
      add_stmt_assign_scopes st2 S st.fresh t s ty hstmt2⟩

/-- State for the claim C4 witness. -/
def c4st : St :=
  { vars := fun j =>
      if j = 0 then { sig := { name := "tgt", var_width := 8 } }
      else if j = 1 then { sig := { name := "src", var_width := 8 } }
      else if j = 2 then { sig := { name := "konst", var_width := 8, vtype := .ConstValue } }
      else if j = 3 then { sig := { name := "ex", var_width := 8, vtype := .Expression } }
      else if j = 4 then { sig := { name := "e1", var_width := 2, enumName := some "color" } }
      else { sig := { name := "e2", var_width := 2, enumName := some "shade" } }
    stmts := fun _ => {}
    scopes := fun _ => []
    fresh := 7 }

/-- Claim C4 witness: on a concrete five-variable state (0: base target,
1: base source, 2: constant, 3: expression node, 4: enum variable of type
"color", 5: enum variable of type "shade"), assigning to the constant and to
the expression fails, enum-mismatched assignment fails, and the plain
assignment succeeds with symmetric registration after attachment to
scope 9. -/
theorem C4_assign_witness :
    var_assign c4st 2 1 .Blocking = .error (.assignToConstErr "src" "konst")
    ∧ var_assign c4st 3 1 .Blocking = .error (.assignToExprErr "src")
    ∧ var_assign c4st 4 1 .Blocking = .error .enumNonEnumErr
    ∧ var_assign c4st 4 5 .Blocking = .error .enumMismatchErr
    ∧ (∃ st2 : St, var_assign c4st 0 1 .Blocking = .ok (7, st2)
        ∧ st2.stmts 7 = { left := .base 0, right := .base 1, scope := none, atype := .Blocking }
        ∧ 7 ∈ ((Generator.add_stmt st2 9 7).vars 0).sources
        ∧ 7 ∈ ((Generator.add_stmt st2 9 7).vars 1).sinks
        ∧ (Generator.add_stmt st2 9 7).stmts 7
            = { left := .base 0, right := .base 1, scope := some 9, atype := .Blocking }
        ∧ 7 ∈ (Generator.add_stmt st2 9 7).scopes 9) := by
  refine ⟨?_, ?_, ?_, ?_, ?_⟩
  · exact (C4_assign_checks c4st 2 1 .Blocking 9).1 rfl
  · exact (C4_assign_checks c4st 3 1 .Blocking 9).2.1 rfl rfl
  · exact ((C4_assign_checks c4st 4 1 .Blocking 9).2.2.1 rfl (by decide)).1 rfl
  · exact ((C4_assign_checks c4st 4 5 .Blocking 9).2.2.1 rfl (by decide)).2 rfl (by decide)
  · exact (C4_assign_checks c4st 0 1 .Blocking 9).2.2.2 (by decide) (by decide)
      (by intro hh; exact absurd hh (by decide))

end kratos
